import Mathlib

/-!
Verification of the multi-entity consolidation subsystem of the news-reader
repository: the batch entity controller (`createOrUpdateEntities`,
`getEntities`, `deleteEntities`, the per-kind listing handlers and
`searchEntities` from `src/backend/controllers/entity.controller.js`), the
Joi validation schemas (`src/backend/utils/validators.js`) and the
per-kind MongoDB model classes (`Topic.js`, `Category.js`, the `Event`
model and the `Note` model).

JavaScript objects are embedded as association lists of string keys and
JSON-like values; MongoDB collections as lists of documents; the per-request
clock (`new Date()`) and the fresh-id generators (`uuidv4`,
`new ObjectId().toString()`) as explicit parameters threaded through the
definitions.
-/

/-- JSON-like runtime values of documents: strings, numbers, booleans,
Date objects, arrays and nested objects. -/
inductive JVal where
  | str (s : String)
  | num (n : Int)
  | bool (b : Bool)
  | time (t : Nat)
  | arr (xs : List JVal)
  | obj (fs : List (String × JVal))

/-- A JavaScript object / MongoDB document: an ordered association list. -/
abbrev Doc := List (String × JVal)

mutual

/-- Structural equality of runtime values (JS deep equality as MongoDB uses
it to count a `$set` as a modification). -/
def JVal.beq : JVal → JVal → Bool
  | .str a, .str b => a == b
  | .num a, .num b => a == b
  | .bool a, .bool b => a == b
  | .time a, .time b => a == b
  | .arr a, .arr b => JVal.beqList a b
  | .obj a, .obj b => JVal.beqFields a b
  | _, _ => false

/-- Elementwise equality of value arrays. -/
def JVal.beqList : List JVal → List JVal → Bool
  | [], [] => true
  | a :: as, b :: bs => JVal.beq a b && JVal.beqList as bs
  | _, _ => false

/-- Fieldwise equality of documents. -/
def JVal.beqFields : List (String × JVal) → List (String × JVal) → Bool
  | [], [] => true
  | (k1, v1) :: as, (k2, v2) :: bs => k1 == k2 && JVal.beq v1 v2 && JVal.beqFields as bs
  | _, _ => false

end

/-- JavaScript truthiness of a value (`""`, `0` and `false` are falsy;
arrays, objects and Date objects are truthy). -/
def JVal.truthy : JVal → Bool
  | .str s => s ≠ ""
  | .num n => n ≠ 0
  | .bool b => b
  | .time _ => true
  | .arr _ => true
  | .obj _ => true

/-- Property read `d.k`: the binding of key `k`, `none` for JS
`undefined` (a JS object holds at most one binding per key). -/
def getField : Doc → String → Option JVal
  | [], _ => none
  | p :: ds, k => if p.1 = k then some p.2 else getField ds k

/-- Property write `d.k = v`: replaces the existing binding in place,
otherwise appends (JS key-order semantics). -/
def setField : Doc → String → JVal → Doc
  | [], k, v => [(k, v)]
  | p :: ds, k, v => if p.1 = k then (k, v) :: ds else p :: setField ds k v

/-- MongoDB `$set` merge: every field of `upd` is written onto `d`. -/
def mergeDoc (d upd : Doc) : Doc :=
  upd.foldl (fun acc p => setField acc p.1 p.2) d

/-- Truthiness of a property access that may be `undefined`
(JS `!!x.k`, used for the validators' `isUpdate` flag and `if (value.id)`). -/
def truthyOpt : Option JVal → Bool
  | some v => v.truthy
  | none => false

/-- JS `x || b` on a property that may be `undefined`: the property when
truthy, otherwise the default. -/
def jor (x : Option JVal) (b : JVal) : JVal :=
  match x with
  | some v => if v.truthy then v else b
  | none => b

/-- The string content of a property expected to hold a string
(template interpolation of `value.id` and the `findOne({id})` filters). -/
def strOf : Option JVal → String
  | some (.str s) => s
  | _ => ""

/-! ### String primitives

The JS string operations the controller and models use (`trim`,
`toLowerCase`, `split(",")`, lexicographic comparison) are given
character-list implementations so that every definition evaluates. -/

/-- JS `s.trim()`: strip leading and trailing whitespace. -/
def jsTrim (s : String) : String :=
  String.mk (((s.data.dropWhile Char.isWhitespace).reverse.dropWhile
    Char.isWhitespace).reverse)

/-- JS `s.toLowerCase()` (ASCII case folding). -/
def lowerStr (s : String) : String := String.mk (s.data.map Char.toLower)

/-- Accumulator pass of `splitComma`. -/
def splitCommaAux : List Char → List Char → List (List Char)
  | [], acc => [acc.reverse]
  | c :: cs, acc =>
      if c = ',' then acc.reverse :: splitCommaAux cs []
      else splitCommaAux cs (c :: acc)

/-- JS `s.split(",")`. -/
def splitComma (s : String) : List String := (splitCommaAux s.data []).map String.mk

/-- Code-point comparison of characters. -/
def charLtb (a b : Char) : Bool := a.toNat < b.toNat

/-- Lexicographic strict comparison of character lists (the BSON string
order used by the `name` sort keys). -/
def strLtb : List Char → List Char → Bool
  | [], [] => false
  | [], _ :: _ => true
  | _ :: _, [] => false
  | a :: as, b :: bs =>
      if charLtb a b then true
      else if charLtb b a then false
      else strLtb as bs

/-- Lexicographic `≤` on strings. -/
def strLeb (a b : String) : Bool := !(strLtb b.data a.data)

/-! ## Joi validation model (`src/backend/utils/validators.js`)

Each validator builds a `Joi.object` schema and runs
`schema.validate(data, { stripUnknown: true, abortEarly: false })`.
We model the schema combinators the four validators use.  Coercions the
claims never exercise (numeric strings to numbers, ISO strings to dates)
and the RFC URI grammar of `Joi.string().uri()` are abstracted: dates are
accepted as date values, URI items as strings. -/

/-- The leaf field checks used by the schemas. `cstr trim allowEmpty`
models `Joi.string()` (optionally `.trim()`, optionally `.allow('')` —
Joi rejects the empty string unless allowed); `cenum` models
`Joi.string().valid(...)`; `cint lo hi` models
`Joi.number().integer().min(lo)` with an optional `.max`; `carrStr trim`
models `Joi.array().items(Joi.string()...)`; `carrUri` models
`Joi.array().items(Joi.string().uri())`; `cobj` models `Joi.object()`. -/
inductive FlatCheck where
  | cstr (trim allowEmpty : Bool)
  | cenum (vals : List String)
  | cdate
  | cint (lo : Int) (hi : Option Int)
  | cbool
  | carrStr (trim : Bool)
  | carrUri
  | cobj

/-- Model of `.trim()` normalization applied by string checks when enabled. -/
def joiTrim (trim : Bool) (s : String) : String :=
  if trim then jsTrim s else s

/-- Validate one value against a leaf check, returning the normalized
value on success and `none` on a validation error. -/
def checkFlat : FlatCheck → JVal → Option JVal
  | .cstr trim allowEmpty, .str s =>
      let t := joiTrim trim s
      if t = "" && !allowEmpty then none else some (.str t)
  | .cenum vals, .str s => if vals.contains s then some (.str s) else none
  | .cdate, .time t => some (.time t)
  | .cint lo hi, .num n =>
      if lo ≤ n && (match hi with | some h => decide (n ≤ h) | none => true) then
        some (.num n)
      else none
  | .cbool, .bool b => some (.bool b)
  | .carrStr trim, .arr xs =>
      let checked := xs.map (fun v =>
        match v with
        | .str s => some (JVal.str (joiTrim trim s))
        | _ => none)
      if checked.all Option.isSome then some (.arr (checked.filterMap id)) else none
  | .carrUri, .arr xs =>
      let checked := xs.map (fun v =>
        match v with
        | .str s => if s = "" then none else some (JVal.str s)
        | _ => none)
      if checked.all Option.isSome then some (.arr (checked.filterMap id)) else none
  | .cobj, .obj fs => some (.obj fs)
  | _, _ => none

/-- One field of a nested object schema (subcategories, timeline items). -/
structure SubField where
  name : String
  required : Bool
  chk : FlatCheck

/-- Validate a nested object against its flat field list, with
`stripUnknown` applied to the nested object as well; `none` on any
missing required field or failing field check. -/
def checkSubDoc (fields : List SubField) : JVal → Option JVal
  | .obj fs =>
      let bad := fields.any (fun f =>
        match getField fs f.name with
        | none => f.required
        | some v => (checkFlat f.chk v).isNone)
      let value := fields.filterMap (fun f =>
        match getField fs f.name with
        | none => none
        | some v => (checkFlat f.chk v).map (fun v2 => (f.name, v2)))
      if bad then none else some (.obj value)
  | _ => none

/-- A top-level schema field check: a leaf check or an array of nested
objects (`Joi.array().items(subSchema)`). -/
inductive FieldCheck where
  | flat (c : FlatCheck)
  | nestedArr (fields : List SubField)

/-- Validate one value against a top-level field check. -/
def checkField : FieldCheck → JVal → Option JVal
  | .flat c, v => checkFlat c v
  | .nestedArr fields, .arr xs =>
      let checked := xs.map (checkSubDoc fields)
      if checked.all Option.isSome then some (.arr (checked.filterMap id)) else none
  | .nestedArr _, _ => none

/-- One declared field of a top-level `Joi.object` schema. -/
structure SchemaField where
  name : String
  required : Bool
  chk : FieldCheck

/-- Model of `schema.validate(data, { stripUnknown: true, abortEarly: false })`:
collect an error for every missing required field and every failing
declared field; the returned value keeps only declared fields that
validate (unknown fields are silently stripped and never inspected). -/
def joiValidate (schema : List SchemaField) (d : Doc) : Except (List String) Doc :=
  let errs := schema.filterMap (fun f =>
    match getField d f.name with
    | none => if f.required then some (f.name ++ " is required") else none
    | some v =>
        if (checkField f.chk v).isSome then none
        else some (f.name ++ " is invalid"))
  let value := schema.filterMap (fun f =>
    match getField d f.name with
    | none => none
    | some v => (checkField f.chk v).map (fun v2 => (f.name, v2)))
  if errs.isEmpty then .ok value else .error errs

/-! ### The four entity schemas (`validators.js`) -/

/-- Schema of `validateTopic`: required `name` unless updating; string id;
arrays of ids and keywords; `timeline` any object; `unread_count ≥ 0`;
`priority` in `[0, 10]`. -/
def topicSchema (isUpdate : Bool) : List SchemaField := [
  ⟨"id", false, .flat (.cstr true false)⟩,
  ⟨"name", !isUpdate, .flat (.cstr true false)⟩,
  ⟨"description", false, .flat (.cstr false true)⟩,
  ⟨"image_urls", false, .flat .carrUri⟩,
  ⟨"keywords", false, .flat (.carrStr true)⟩,
  ⟨"articles_ids", false, .flat (.carrStr true)⟩,
  ⟨"categories_ids", false, .flat (.carrStr true)⟩,
  ⟨"related_topics_ids", false, .flat (.carrStr true)⟩,
  ⟨"timeline", false, .flat .cobj⟩,
  ⟨"unread_count", false, .flat (.cint 0 none)⟩,
  ⟨"priority", false, .flat (.cint 0 (some 10))⟩]

/-- Model of `validateTopic(data, isUpdate)`. -/
def validateTopic (d : Doc) (isUpdate : Bool) : Except (List String) Doc :=
  joiValidate (topicSchema isUpdate) d

/-- Nested subcategory schema of `validateCategory`: `id` and `name`
required. -/
def subcategoryFields : List SubField := [
  ⟨"id", true, .cstr true false⟩,
  ⟨"name", true, .cstr true false⟩,
  ⟨"description", false, .cstr false true⟩,
  ⟨"topics_ids", false, .carrStr true⟩,
  ⟨"unread_count", false, .cint 0 none⟩,
  ⟨"priority", false, .cint 0 (some 10)⟩]

/-- Schema of `validateCategory`. -/
def categorySchema (isUpdate : Bool) : List SchemaField := [
  ⟨"id", false, .flat (.cstr true false)⟩,
  ⟨"name", !isUpdate, .flat (.cstr true false)⟩,
  ⟨"description", false, .flat (.cstr false true)⟩,
  ⟨"image_urls", false, .flat .carrUri⟩,
  ⟨"keywords", false, .flat (.carrStr true)⟩,
  ⟨"topics_ids", false, .flat (.carrStr true)⟩,
  ⟨"subcategories", false, .nestedArr subcategoryFields⟩,
  ⟨"unread_count", false, .flat (.cint 0 none)⟩,
  ⟨"priority", false, .flat (.cint 0 (some 10))⟩]

/-- Model of `validateCategory(data, isUpdate)`. -/
def validateCategory (d : Doc) (isUpdate : Bool) : Except (List String) Doc :=
  joiValidate (categorySchema isUpdate) d

/-- Nested timeline item schema of `validateEvent`: `date` and
`description` required. -/
def eventTimelineFields : List SubField := [
  ⟨"date", true, .cdate⟩,
  ⟨"description", true, .cstr false false⟩,
  ⟨"articles_ids", false, .carrStr true⟩]

/-- Schema of `validateEvent`: required `date` and `description` unless
updating. -/
def eventSchema (isUpdate : Bool) : List SchemaField := [
  ⟨"id", false, .flat (.cstr true false)⟩,
  ⟨"date", !isUpdate, .flat .cdate⟩,
  ⟨"description", !isUpdate, .flat (.cstr false false)⟩,
  ⟨"image_urls", false, .flat .carrUri⟩,
  ⟨"related_events_ids", false, .flat (.carrStr true)⟩,
  ⟨"articles_ids", false, .flat (.carrStr true)⟩,
  ⟨"timeline", false, .nestedArr eventTimelineFields⟩,
  ⟨"unread_count", false, .flat (.cint 0 none)⟩,
  ⟨"priority", false, .flat (.cint 0 (some 10))⟩]

/-- Model of `validateEvent(data, isUpdate)`. -/
def validateEvent (d : Doc) (isUpdate : Bool) : Except (List String) Doc :=
  joiValidate (eventSchema isUpdate) d

/-- The enumerated reference types a Note may point at. -/
def validReferenceTypes : List String := ["article", "topic", "category", "event"]

/-- Schema of `validateNote`: required `content`, `reference_type`
(restricted to `validReferenceTypes`) and `reference_id` unless updating;
optional dates, tags, metadata, priority and archive flag. -/
def noteSchema (isUpdate : Bool) : List SchemaField := [
  ⟨"id", false, .flat (.cstr true false)⟩,
  ⟨"content", !isUpdate, .flat (.cstr false false)⟩,
  ⟨"created_at", false, .flat .cdate⟩,
  ⟨"updated_at", false, .flat .cdate⟩,
  ⟨"reference_type", !isUpdate, .flat (.cenum validReferenceTypes)⟩,
  ⟨"reference_id", !isUpdate, .flat (.cstr true false)⟩,
  ⟨"tags", false, .flat (.carrStr true)⟩,
  ⟨"metadata", false, .flat .cobj⟩,
  ⟨"priority", false, .flat (.cint 0 (some 10))⟩,
  ⟨"is_archived", false, .flat .cbool⟩]

/-- Model of `validateNote(data, isUpdate)`. -/
def validateNote (d : Doc) (isUpdate : Bool) : Except (List String) Doc :=
  joiValidate (noteSchema isUpdate) d

/-! ## MongoDB collection model (`src/mongodb/models/*.js`)

A collection is the ordered list of its documents.  `insertOne` always
acknowledges (the collections have no unique index on `id`), so `create`
never returns the `null` failure signal in this model; `updateOne` counts
a modification only when the `$set` actually changes the matched document
(`modifiedCount`), and `deleteOne` reports whether a document was removed
(`deletedCount`). -/

abbrev Coll := List Doc

/-- Does the document match the filter `{ id }` for a string id? -/
def docIdIs (d : Doc) (id : String) : Bool :=
  match getField d "id" with
  | some (.str s) => s == id
  | _ => false

/-- Model of `collection.findOne({ id })`. -/
def collFindById (c : Coll) (id : String) : Option Doc :=
  c.find? (fun d => docIdIs d id)

/-- Model of `collection.insertOne(doc)`. -/
def collInsert (c : Coll) (d : Doc) : Coll := c ++ [d]

/-- Model of `collection.updateOne({ id }, { $set: upd })`: merge onto the first
matching document; the boolean is `modifiedCount > 0`. -/
def collUpdateById (c : Coll) (id : String) (upd : Doc) : Coll × Bool :=
  match c with
  | [] => ([], false)
  | d :: ds =>
      if docIdIs d id then
        let d2 := mergeDoc d upd
        (d2 :: ds, !(JVal.beqFields d d2))
      else
        let r := collUpdateById ds id upd
        (d :: r.1, r.2)

/-- Model of `collection.deleteOne({ id })`: the boolean is `deletedCount > 0`. -/
def collDeleteById (c : Coll) (id : String) : Coll × Bool :=
  match c with
  | [] => ([], false)
  | d :: ds =>
      if docIdIs d id then (ds, true)
      else
        let r := collDeleteById ds id
        (d :: r.1, r.2)

/-- Numeric field read with the BSON sort default for documents lacking
the field. -/
def numField (d : Doc) (k : String) : Int :=
  match getField d k with
  | some (.num n) => n
  | _ => 0

/-- String field read, defaulting to the empty string. -/
def strField (d : Doc) (k : String) : String :=
  match getField d k with
  | some (.str s) => s
  | _ => ""

/-- Date field read, defaulting to the epoch. -/
def timeField (d : Doc) (k : String) : Nat :=
  match getField d k with
  | some (.time t) => t
  | _ => 0

/-- Does the prefix relation hold between two character lists? -/
def charsStartWith : List Char → List Char → Bool
  | _, [] => true
  | [], _ :: _ => false
  | a :: as, b :: bs => a == b && charsStartWith as bs

/-- Does `needle` occur contiguously inside `hay`? -/
def charsContain (hay needle : List Char) : Bool :=
  match hay with
  | [] => needle.isEmpty
  | _ :: t => charsStartWith hay needle || charsContain t needle

/-- Case-insensitive substring match: the `$regex keyword, $options: i`
filters of the model `search` methods (the keyword is treated as a
literal pattern). -/
def containsCI (hay needle : String) : Bool :=
  charsContain (lowerStr hay).data (lowerStr needle).data

/-- MongoDB equality filter `{ field: keyword }` on an array-valued
field: matches when the array contains the keyword (or the field is the
keyword itself). -/
def keywordFieldMatch (d : Doc) (k : String) (kw : String) : Bool :=
  match getField d k with
  | some (.arr xs) => xs.any (fun v => JVal.beq v (.str kw))
  | some (.str s) => s == kw
  | _ => false

/-- A strict character-list comparison in one direction excludes the
other. -/
theorem strLtb_asymm : ∀ as bs : List Char, strLtb as bs = true → strLtb bs as = false := by
  intro as
  induction as with
  | nil => intro bs h; cases bs <;> simp_all [strLtb]
  | cons a as ih =>
      intro bs h
      cases bs with
      | nil => simp [strLtb] at h
      | cons b bs =>
          rw [strLtb] at h ⊢
          by_cases hab : charLtb a b = true
          · have h1 : a.toNat < b.toNat := by simpa [charLtb] using hab
            have hba : ¬ charLtb b a = true := by simp [charLtb]; omega
            have hba2 : charLtb b a = false := by simpa using hba
            simp [hba2, charLtb]
            omega
          · rw [if_neg hab] at h
            by_cases hba : charLtb b a = true
            · rw [if_pos hba] at h
              cases h
            · rw [if_neg hba] at h
              rw [if_neg hba, if_neg hab]
              exact ih bs h

/-- Totality of the string order. -/
theorem strLeb_total (a b : String) : strLeb a b = true ∨ strLeb b a = true := by
  unfold strLeb
  by_cases h : strLtb b.data a.data = true
  · exact Or.inr (by simp [strLtb_asymm _ _ h])
  · exact Or.inl (by simp [Bool.not_eq_true] at h; simp [h])

/-- Connectedness of the strict order: a strict comparison passes
through any middle list. -/
theorem strLtb_connect : ∀ cs as bs : List Char,
    strLtb cs as = true → strLtb cs bs = true ∨ strLtb bs as = true := by
  intro cs
  induction cs with
  | nil =>
      intro as bs h
      cases as with
      | nil => simp [strLtb] at h
      | cons a as =>
          cases bs with
          | nil => exact Or.inr (by simp [strLtb])
          | cons b bs => exact Or.inl (by simp [strLtb])
  | cons c cs ih =>
      intro as bs h
      cases as with
      | nil => simp [strLtb] at h
      | cons a as =>
          cases bs with
          | nil => exact Or.inr (by simp [strLtb])
          | cons b bs =>
              rw [strLtb] at h
              by_cases hcb : charLtb c b = true
              · exact Or.inl (by rw [strLtb, if_pos hcb])
              · by_cases hba : charLtb b a = true
                · exact Or.inr (by rw [strLtb, if_pos hba])
                · have hcb2 : ¬ c.toNat < b.toNat := by simpa [charLtb] using hcb
                  have hba2 : ¬ b.toNat < a.toNat := by simpa [charLtb] using hba
                  by_cases hca : charLtb c a = true
                  · have h1 : c.toNat < a.toNat := by simpa [charLtb] using hca
                    exact absurd h1 (by omega)
                  · rw [if_neg hca] at h
                    by_cases hac : charLtb a c = true
                    · rw [if_pos hac] at h
                      cases h
                    · rw [if_neg hac] at h
                      have hca2 : ¬ c.toNat < a.toNat := by simpa [charLtb] using hca
                      have hac2 : ¬ a.toNat < c.toNat := by simpa [charLtb] using hac
                      have hbc : ¬ charLtb b c = true := by simp [charLtb]; omega
                      have hab : ¬ charLtb a b = true := by simp [charLtb]; omega
                      rcases ih as bs h with h4 | h4
                      · refine Or.inl ?_
                        rw [strLtb, if_neg hcb, if_neg hbc]
                        exact h4
                      · refine Or.inr ?_
                        rw [strLtb, if_neg hba, if_neg hab]
                        exact h4

/-- Transitivity of the string order. -/
theorem strLeb_trans (a b c : String) (h1 : strLeb a b = true) (h2 : strLeb b c = true) :
    strLeb a c = true := by
  unfold strLeb at h1 h2 ⊢
  simp only [Bool.not_eq_true'] at h1 h2 ⊢
  by_contra hlt
  simp only [Bool.not_eq_false] at hlt
  rcases strLtb_connect c.data a.data b.data hlt with h3 | h3
  · rw [h3] at h2; cases h2
  · rw [h3] at h1; cases h1

/-- Sort order `{ priority: -1, name: 1 }` used by `Topic.getAll`. -/
def prioNameLE (d e : Doc) : Prop :=
  numField e "priority" < numField d "priority" ∨
    (numField d "priority" = numField e "priority" ∧
      strLeb (strField d "name") (strField e "name") = true)

instance : DecidableRel prioNameLE := fun d e => by
  unfold prioNameLE; infer_instance

instance : IsTotal Doc prioNameLE := by
  constructor
  intro a b
  rcases lt_trichotomy (numField a "priority") (numField b "priority") with h | h | h
  · exact Or.inr (Or.inl h)
  · rcases strLeb_total (strField a "name") (strField b "name") with h2 | h2
    · exact Or.inl (Or.inr ⟨h, h2⟩)
    · exact Or.inr (Or.inr ⟨h.symm, h2⟩)
  · exact Or.inl (Or.inl h)

instance : IsTrans Doc prioNameLE := by
  constructor
  intro a b c hab hbc
  rcases hab with h1 | ⟨h1, h1n⟩
  · rcases hbc with h2 | ⟨h2, _⟩
    · exact Or.inl (h2.trans h1)
    · exact Or.inl (by rw [← h2]; exact h1)
  · rcases hbc with h2 | ⟨h2, h2n⟩
    · exact Or.inl (by rw [h1]; exact h2)
    · exact Or.inr ⟨h1.trans h2, strLeb_trans _ _ _ h1n h2n⟩

/-- Sort order `{ priority: -1 }` used by `Topic.search`. -/
def prioDescLE (d e : Doc) : Prop :=
  numField e "priority" ≤ numField d "priority"

instance : DecidableRel prioDescLE := fun d e => by
  unfold prioDescLE; infer_instance

instance : IsTotal Doc prioDescLE :=
  ⟨fun a b => (le_total (numField b "priority") (numField a "priority")).imp id id⟩

instance : IsTrans Doc prioDescLE :=
  ⟨fun _ _ _ hab hbc => le_trans hbc hab⟩

/-- Sort order `{ name: 1 }` used by `Category.findAll` and
`Category.search`. -/
def nameAscLE (d e : Doc) : Prop :=
  strLeb (strField d "name") (strField e "name") = true

instance : DecidableRel nameAscLE := fun d e => by
  unfold nameAscLE; infer_instance

instance : IsTotal Doc nameAscLE :=
  ⟨fun a b => strLeb_total (strField a "name") (strField b "name")⟩

instance : IsTrans Doc nameAscLE :=
  ⟨fun _ _ _ hab hbc => strLeb_trans _ _ _ hab hbc⟩

/-- Sort order `{ created_at: -1 }` used by the Note queries. -/
def createdDescLE (d e : Doc) : Prop :=
  timeField e "created_at" ≤ timeField d "created_at"

instance : DecidableRel createdDescLE := fun d e => by
  unfold createdDescLE; infer_instance

instance : IsTotal Doc createdDescLE :=
  ⟨fun a b => (le_total (timeField b "created_at") (timeField a "created_at")).imp id id⟩

instance : IsTrans Doc createdDescLE :=
  ⟨fun _ _ _ hab hbc => le_trans hbc hab⟩

/-- Sort order `{ date: -1 }` used by the `Event` model queries
(`search`, `getRecent`). -/
def dateDescLE (d e : Doc) : Prop :=
  timeField e "date" ≤ timeField d "date"

instance : DecidableRel dateDescLE := fun d e => by
  unfold dateDescLE; infer_instance

instance : IsTotal Doc dateDescLE :=
  ⟨fun a b => (le_total (timeField b "date") (timeField a "date")).imp id id⟩

instance : IsTrans Doc dateDescLE :=
  ⟨fun _ _ _ hab hbc => le_trans hbc hab⟩

/-! ## Fresh identifiers

`uuidv4()` (controller) and `new ObjectId().toString()` (models) are
opaque fresh-string sources; both are modelled by formatting a counter
that is threaded through the computation. -/

/-- The controller's `uuidv4()` at generation step `n`. -/
def uuidv4 (n : Nat) : String := "uuid-" ++ toString n

/-- The models' `new ObjectId().toString()` at generation step `n`. -/
def objectIdStr (n : Nat) : String := "oid-" ++ toString n

/-! ## Model classes -/

/-- Model of `Topic.create` (`Topic.js`): assign an id when the payload's `id` is
falsy, insert, and return the inserted document (`null` would be
returned only on an unacknowledged insert). -/
def topicModelCreate (c : Coll) (ctr : Nat) (d : Doc) : Coll × Nat × Option Doc :=
  let r :=
    if truthyOpt (getField d "id") then (d, ctr)
    else (setField d "id" (.str (objectIdStr ctr)), ctr + 1)
  (collInsert c r.1, r.2, some r.1)

/-- Model of `Topic.update`: `$set` merge by id. -/
def topicUpdate (c : Coll) (id : String) (upd : Doc) : Coll × Bool :=
  collUpdateById c id upd

/-- Model of `Topic.getAll`: full listing sorted `{ priority: -1, name: 1 }`,
paginated. -/
def topicGetAll (c : Coll) (limit skip : Nat) : List Doc :=
  ((List.insertionSort prioNameLE c).drop skip).take limit

/-- The `$or` filter of `Topic.search`: case-insensitive substring on
`name` and `description`, exact keyword membership in `keywords`. -/
def topicSearchPred (kw : String) (d : Doc) : Bool :=
  containsCI (strField d "name") kw ||
  containsCI (strField d "description") kw ||
  keywordFieldMatch d "keywords" kw

/-- Model of `Topic.search`: filtered, sorted `{ priority: -1 }`, paginated. -/
def topicSearch (c : Coll) (kw : String) (limit skip : Nat) : List Doc :=
  ((List.insertionSort prioDescLE (c.filter (topicSearchPred kw))).drop skip).take limit

/-- Model of `Category.create` (`Category.js`): assign an id when falsy,
initialize `subcategories` to the empty array when falsy, insert. -/
def categoryModelCreate (c : Coll) (ctr : Nat) (d : Doc) : Coll × Nat × Option Doc :=
  let r :=
    if truthyOpt (getField d "id") then (d, ctr)
    else (setField d "id" (.str (objectIdStr ctr)), ctr + 1)
  let d3 :=
    if truthyOpt (getField r.1 "subcategories") then r.1
    else setField r.1 "subcategories" (.arr [])
  (collInsert c d3, r.2, some d3)

/-- Model of `Category.findAll`: full listing sorted `{ name: 1 }`, paginated. -/
def categoryFindAll (c : Coll) (limit skip : Nat) : List Doc :=
  ((List.insertionSort nameAscLE c).drop skip).take limit

/-- Model of `Category.getAll`: alias for `findAll`, used by the entity
controller. -/
def categoryGetAll (c : Coll) (limit skip : Nat) : List Doc :=
  categoryFindAll c limit skip

/-- Model of `Category.update`: `$set` merge by id. -/
def categoryUpdate (c : Coll) (id : String) (upd : Doc) : Coll × Bool :=
  collUpdateById c id upd

/-- The `$or` filter of `Category.search`, which additionally matches
subcategory names. -/
def categorySearchPred (kw : String) (d : Doc) : Bool :=
  containsCI (strField d "name") kw ||
  containsCI (strField d "description") kw ||
  keywordFieldMatch d "keywords" kw ||
  (match getField d "subcategories" with
   | some (.arr xs) => xs.any (fun v =>
       match v with
       | .obj fs => containsCI (strField fs "name") kw
       | _ => false)
   | _ => false)

/-- Model of `Category.search`: filtered, sorted `{ name: 1 }`, paginated. -/
def categorySearch (c : Coll) (kw : String) (limit skip : Nat) : List Doc :=
  ((List.insertionSort nameAscLE (c.filter (categorySearchPred kw))).drop skip).take limit

/-- Model of `Note.create` (the Note model): assign an id when falsy, default
`created_at`/`updated_at` to the request time, initialize `tags`,
`metadata` and `is_archived`, insert. -/
def noteModelCreate (c : Coll) (ctr now : Nat) (d : Doc) : Coll × Nat × Option Doc :=
  let r :=
    if truthyOpt (getField d "id") then (d, ctr)
    else (setField d "id" (.str (objectIdStr ctr)), ctr + 1)
  let d2 := setField r.1 "created_at" (jor (getField r.1 "created_at") (.time now))
  let d3 := setField d2 "updated_at" (jor (getField d2 "updated_at") (.time now))
  let d4 := setField d3 "tags" (jor (getField d3 "tags") (.arr []))
  let d5 := setField d4 "metadata" (jor (getField d4 "metadata") (.obj []))
  let d6 := setField d5 "is_archived" (jor (getField d5 "is_archived") (.bool false))
  (collInsert c d6, r.2, some d6)

/-- Model of `Note.update`: unconditionally stamps `updated_at` with the current
time before the `$set` merge. -/
def noteUpdate (c : Coll) (id : String) (upd : Doc) (now : Nat) : Coll × Bool :=
  collUpdateById c id (setField upd "updated_at" (.time now))

/-- MongoDB filter `{ is_archived: false }`. -/
def notArchived (d : Doc) : Bool :=
  match getField d "is_archived" with
  | some (.bool false) => true
  | _ => false

/-- Model of `Note.getRecent`: unarchived notes sorted `{ created_at: -1 }`. -/
def noteGetRecent (c : Coll) (limit : Nat) : List Doc :=
  (List.insertionSort createdDescLE (c.filter notArchived)).take limit

/-- Model of `Note.search`: case-insensitive substring on `content` over
unarchived notes, sorted `{ created_at: -1 }`, paginated. -/
def noteSearch (c : Coll) (kw : String) (limit skip : Nat) : List Doc :=
  ((List.insertionSort createdDescLE
      (c.filter (fun d => containsCI (strField d "content") kw && notArchived d))).drop
    skip).take limit

/-- Model of `Event.create` (the `Event` model class, loaded as
`./models/Event` by `src/mongodb/db.js`): when `eventData.id` is falsy a
fresh `new ObjectId().toString()` is assigned, a falsy `timeline` is
initialized to `{ events: [] }`, the document is inserted, and (as
`insertOne` acknowledges) the inserted document is returned. -/
def eventModelCreate (c : Coll) (ctr : Nat) (d : Doc) : Coll × Nat × Option Doc :=
  let r :=
    if truthyOpt (getField d "id") then (d, ctr)
    else (setField d "id" (.str (objectIdStr ctr)), ctr + 1)
  let d3 :=
    if truthyOpt (getField r.1 "timeline") then r.1
    else setField r.1 "timeline" (.obj [("events", .arr [])])
  (collInsert c d3, r.2, some d3)

/-- Model of `Event.update`: `updateOne({ id }, { $set: updateData })`,
returning `modifiedCount > 0`. -/
def eventUpdate (c : Coll) (id : String) (upd : Doc) : Coll × Bool :=
  collUpdateById c id upd

/-- Model of `Event.search(keyword, limit, skip)`:
`find({ description: { $regex: keyword, $options: "i" } })` — a
case-insensitive substring match on `description` — sorted
`{ date: -1 }`, then `skip` and `limit`. -/
def eventSearch (c : Coll) (kw : String) (limit skip : Nat) : List Doc :=
  ((List.insertionSort dateDescLE
      (c.filter (fun d => containsCI (strField d "description") kw))).drop skip).take limit

/-! ## The batch entity controller (`entity.controller.js`) -/

/-- The four entity kinds handled by the consolidated controller. -/
inductive Kind where
  | topics
  | categories
  | events
  | notes
  deriving DecidableEq

/-- The kinds in the order the controller's blocks process them. -/
def kindOrder : List Kind := [.topics, .categories, .events, .notes]

/-- Capitalized singular used in not-found messages
(`Topic with ID ... not found`). -/
def kindLabel : Kind → String
  | .topics => "Topic"
  | .categories => "Category"
  | .events => "Event"
  | .notes => "Note"

/-- Lowercase singular used in the failure messages
(`Failed to update topic with ID ...`). -/
def kindLower : Kind → String
  | .topics => "topic"
  | .categories => "category"
  | .events => "event"
  | .notes => "note"

/-- The database, one collection per kind (the article collection is
outside the consolidated controller). -/
structure Store where
  topics : Coll
  categories : Coll
  events : Coll
  notes : Coll

/-- The collection backing a kind. -/
def Store.coll (st : Store) : Kind → Coll
  | .topics => st.topics
  | .categories => st.categories
  | .events => st.events
  | .notes => st.notes

/-- Replace the collection backing a kind. -/
def Store.setColl (st : Store) : Kind → Coll → Store
  | .topics, c => { st with topics := c }
  | .categories, c => { st with categories := c }
  | .events, c => { st with events := c }
  | .notes, c => { st with notes := c }

/-- The kind's validator (`validateTopic` ... `validateNote`). -/
def kindValidate : Kind → Doc → Bool → Except (List String) Doc
  | .topics => validateTopic
  | .categories => validateCategory
  | .events => validateEvent
  | .notes => validateNote

/-- Model of `models.<kind>.findById(id)`. -/
def kindFindById (st : Store) (k : Kind) (id : String) : Option Doc :=
  collFindById (st.coll k) id

/-- Model of `models.<kind>.update(id, value)`; the Note model stamps
`updated_at` with the request time. -/
def kindUpdate (st : Store) (k : Kind) (id : String) (upd : Doc) (now : Nat) :
    Store × Bool :=
  match k with
  | .topics =>
      let r := topicUpdate st.topics id upd
      ({ st with topics := r.1 }, r.2)
  | .categories =>
      let r := categoryUpdate st.categories id upd
      ({ st with categories := r.1 }, r.2)
  | .events =>
      let r := eventUpdate st.events id upd
      ({ st with events := r.1 }, r.2)
  | .notes =>
      let r := noteUpdate st.notes id upd now
      ({ st with notes := r.1 }, r.2)

/-- Model of `models.<kind>.create(entityToCreate)`. -/
def kindModelCreate (st : Store) (k : Kind) (ctr now : Nat) (d : Doc) :
    Store × Nat × Option Doc :=
  match k with
  | .topics =>
      let r := topicModelCreate st.topics ctr d
      ({ st with topics := r.1 }, r.2.1, r.2.2)
  | .categories =>
      let r := categoryModelCreate st.categories ctr d
      ({ st with categories := r.1 }, r.2.1, r.2.2)
  | .events =>
      let r := eventModelCreate st.events ctr d
      ({ st with events := r.1 }, r.2.1, r.2.2)
  | .notes =>
      let r := noteModelCreate st.notes ctr now d
      ({ st with notes := r.1 }, r.2.1, r.2.2)

/-- Model of `models.<kind>.delete(id)`. -/
def kindDelete (st : Store) (k : Kind) (id : String) : Store × Bool :=
  let r := collDeleteById (st.coll k) id
  (st.setColl k r.1, r.2)

/-- A per-item error entry `{ data, error }` of the create/update batch. -/
structure ErrEntry where
  data : Doc
  error : String

/-- The fate of one batch item: appended to the kind's `created` list,
its `updated` list, or its `errors` list. -/
inductive Outcome where
  | created (d : Doc)
  | updated (d : Doc)
  | failed (e : ErrEntry)

/-- The kind-specific defaults the controller applies before `create`:
id generation, then `unread_count`/`priority` for topics, categories and
events, but timestamps and the archive flag for notes. -/
def applyCreateDefaults (k : Kind) (now : Nat) (value : Doc) (uuidStr : String) : Doc :=
  let d0 := setField value "id" (jor (getField value "id") (.str uuidStr))
  match k with
  | .notes =>
      let d1 := setField d0 "created_at" (jor (getField d0 "created_at") (.time now))
      let d2 := setField d1 "updated_at" (jor (getField d1 "updated_at") (.time now))
      setField d2 "is_archived" (jor (getField d2 "is_archived") (.bool false))
  | _ =>
      let d1 := setField d0 "unread_count" (jor (getField d0 "unread_count") (.num 0))
      setField d1 "priority" (jor (getField d1 "priority") (.num 0))

/-- One iteration of a kind's `for (const data of req.body.<kind>)` loop:
validate, then update (with existence check) or create (with defaults).
The functional store model never throws, so the per-item `catch` arm has
no counterpart. -/
def processItem (k : Kind) (now : Nat) (st : Store) (ctr : Nat) (raw : Doc) :
    Store × Nat × Outcome :=
  match kindValidate k raw (truthyOpt (getField raw "id")) with
  | .error msgs =>
      (st, ctr, .failed ⟨raw, "Validation error: " ++ msgs.headD ""⟩)
  | .ok value =>
      if truthyOpt (getField value "id") then
        let id := strOf (getField value "id")
        match kindFindById st k id with
        | none =>
            (st, ctr, .failed ⟨raw, kindLabel k ++ " with ID " ++ id ++ " not found"⟩)
        | some _ =>
            let r := kindUpdate st k id value now
            if r.2 then
              match kindFindById r.1 k id with
              | some updatedDoc => (r.1, ctr, .updated updatedDoc)
              | none => (r.1, ctr, .updated [])
            else
              (r.1, ctr,
                .failed ⟨raw, "Failed to update " ++ kindLower k ++ " with ID " ++ id⟩)
      else
        let d := applyCreateDefaults k now value (uuidv4 ctr)
        let r := kindModelCreate st k (ctr + 1) now d
        match r.2.2 with
        | some createdDoc => (r.1, r.2.1, .created createdDoc)
        | none => (r.1, r.2.1, .failed ⟨raw, "Failed to create " ++ kindLower k⟩)

/-- A kind's whole item loop, threading the store and the id counter and
collecting the per-item outcomes in order. -/
def processItems (k : Kind) (now : Nat) : Store → Nat → List Doc → Store × Nat × List Outcome
  | st, ctr, [] => (st, ctr, [])
  | st, ctr, d :: ds =>
      let r := processItem k now st ctr d
      let r2 := processItems k now r.1 r.2.1 ds
      (r2.1, r2.2.1, r.2.2 :: r2.2.2)

/-- A create/update request body: for each kind, `none` when the key is
absent (or not an array), otherwise the posted list. -/
abbrev Batch := Kind → Option (List Doc)

/-- Run the kind blocks in source order; a kind participates only when
its key holds a non-empty list, and its outcome list is recorded under
its key. -/
def processBatch (now : Nat) : List Kind → Store → Nat → Batch →
    Store × Nat × (Kind → Option (List Outcome))
  | [], st, ctr, _ => (st, ctr, fun _ => none)
  | k :: ks, st, ctr, body =>
      match body k with
      | some items =>
          if items.isEmpty then processBatch now ks st ctr body
          else
            let r := processItems k now st ctr items
            let r2 := processBatch now ks r.1 r.2.1 body
            (r2.1, r2.2.1, Function.update r2.2.2 k (some r.2.2))
      | none => processBatch now ks st ctr body

/-- Drop empty per-kind arrays (the `Object.keys(...).forEach` cleanup). -/
def pruneMap {α : Type} (f : Kind → Option (List α)) : Kind → Option (List α) :=
  fun k =>
    match f k with
    | some [] => none
    | x => x

/-- The document of a `created` outcome. -/
def createdOf : Outcome → Option Doc
  | .created d => some d
  | _ => none

/-- The document of an `updated` outcome. -/
def updatedOf : Outcome → Option Doc
  | .updated d => some d
  | _ => none

/-- The error entry of a failed outcome. -/
def failedOf : Outcome → Option ErrEntry
  | .failed e => some e
  | _ => none

/-- The aggregated response of `POST /entities` together with the HTTP
status the handler sends. -/
structure BatchResponse where
  success : Bool
  status : Nat
  created : Kind → Option (List Doc)
  updated : Kind → Option (List Doc)
  errors : Kind → Option (List ErrEntry)

/-- Model of `createOrUpdateEntities`: process the present kinds, split each
kind's outcomes into created/updated/errors, prune empty arrays, set
`success` iff the pruned errors object has no keys, and answer 200 on
success and 207 otherwise. -/
def createOrUpdateEntities (st : Store) (ctr now : Nat) (body : Batch) :
    Store × Nat × BatchResponse :=
  let r := processBatch now kindOrder st ctr body
  let createdM := pruneMap (fun k => (r.2.2 k).map (List.filterMap createdOf))
  let updatedM := pruneMap (fun k => (r.2.2 k).map (List.filterMap updatedOf))
  let errorsM := pruneMap (fun k => (r.2.2 k).map (List.filterMap failedOf))
  let success := kindOrder.all (fun k => (errorsM k).isNone)
  (r.1, r.2.1,
    { success := success
      status := if success then 200 else 207
      created := createdM
      updated := updatedM
      errors := errorsM })

/-! ## `getEntities` and `deleteEntities` -/

/-- Parse one comma-separated ID query parameter: split on commas, trim
each piece, drop empties; an absent parameter yields the empty list. -/
def parseIds (s? : Option String) : List String :=
  match s? with
  | none => []
  | some s => ((splitComma s).map jsTrim).filter (fun t => t ≠ "")

/-- A per-ID error entry `{ id, error }` of the get/delete batches. -/
structure IdErrEntry where
  id : String
  error : String

/-- The aggregated response of `GET /entities` with its HTTP status. -/
structure GetResponse where
  success : Bool
  status : Nat
  data : Kind → Option (List Doc)
  errors : Kind → Option (List IdErrEntry)

/-- The query string of `GET /entities`: for each kind, the raw
comma-separated `<kind>Ids` parameter when given. -/
abbrev GetQuery := Kind → Option String

/-- Model of `getEntities`: for each kind with a non-empty parsed ID list, fetch
each ID individually; found documents go to `data`, missing IDs each get
their own error entry; prune, set `success`, answer 200/207. -/
def getEntities (st : Store) (q : GetQuery) : GetResponse :=
  let dataM := pruneMap (fun k =>
    let ids := parseIds (q k)
    if ids.isEmpty then none
    else some (ids.filterMap (fun id => kindFindById st k id)))
  let errorsM := pruneMap (fun k =>
    let ids := parseIds (q k)
    if ids.isEmpty then none
    else
      some (ids.filterMap (fun id =>
        if (kindFindById st k id).isNone then
          some ⟨id, kindLabel k ++ " with ID " ++ id ++ " not found"⟩
        else none)))
  let success := kindOrder.all (fun k => (errorsM k).isNone)
  { success := success
    status := if success then 200 else 207
    data := dataM
    errors := errorsM }

/-- The aggregated response of `DELETE /entities` with its HTTP status. -/
structure DeleteResponse where
  success : Bool
  status : Nat
  deleted : Kind → Option (List String)
  errors : Kind → Option (List IdErrEntry)

/-- One kind's `for (const id of req.body.<kind>Ids)` loop: the
existence check precedes the delete, so a missing ID reports not-found
while a delete reporting no removal reports a delete failure. -/
def deleteItems (k : Kind) : Store → List String → Store × List String × List IdErrEntry
  | st, [] => (st, [], [])
  | st, id :: ids =>
      match kindFindById st k id with
      | none =>
          let r := deleteItems k st ids
          (r.1, r.2.1, ⟨id, kindLabel k ++ " with ID " ++ id ++ " not found"⟩ :: r.2.2)
      | some _ =>
          let r0 := kindDelete st k id
          if r0.2 then
            let r := deleteItems k r0.1 ids
            (r.1, id :: r.2.1, r.2.2)
          else
            let r := deleteItems k r0.1 ids
            (r.1, r.2.1,
              ⟨id, "Failed to delete " ++ kindLower k ++ " with ID " ++ id⟩ :: r.2.2)

/-- The body of `DELETE /entities`: for each kind, `none` when the
`<kind>Ids` key is absent (or not an array), otherwise the ID list. -/
abbrev DeleteBody := Kind → Option (List String)

/-- Run the delete blocks in source order; a kind participates only when
its key holds a non-empty array. -/
def deleteBatch : List Kind → Store → DeleteBody →
    Store × (Kind → Option (List String)) × (Kind → Option (List IdErrEntry))
  | [], st, _ => (st, fun _ => none, fun _ => none)
  | k :: ks, st, body =>
      match body k with
      | some ids =>
          if ids.isEmpty then deleteBatch ks st body
          else
            let r := deleteItems k st ids
            let r2 := deleteBatch ks r.1 body
            (r2.1, Function.update r2.2.1 k (some r.2.1),
              Function.update r2.2.2 k (some r.2.2))
      | none => deleteBatch ks st body

/-- Model of `deleteEntities`: per-kind deletion with existence checks, pruning,
`success` and the 200/207 convention. -/
def deleteEntities (st : Store) (body : DeleteBody) : Store × DeleteResponse :=
  let r := deleteBatch kindOrder st body
  let deletedM := pruneMap r.2.1
  let errorsM := pruneMap r.2.2
  let success := kindOrder.all (fun k => (errorsM k).isNone)
  (r.1,
    { success := success
      status := if success then 200 else 207
      deleted := deletedM
      errors := errorsM })

/-! ## Listing handlers and their fallback datasets -/

/-- Model of `getSampleCategories()`: the fixed fallback categories. -/
def getSampleCategories : List Doc := [
  [("id", .str "cat1"), ("name", .str "Technology"),
   ("description", .str "News and developments in the technology sector"),
   ("keywords", .arr [.str "tech", .str "digital", .str "innovation"]),
   ("image_urls", .arr []),
   ("topics_ids", .arr [.str "topic3", .str "topic4"]),
   ("unread_count", .num 12), ("priority", .num 2),
   ("subcategories", .arr [
     .obj [("id", .str "subcat1"), ("name", .str "Artificial Intelligence"),
           ("description", .str "Machine learning, neural networks, and AI research"),
           ("keywords", .arr [.str "AI", .str "ML", .str "deep learning"]),
           ("unread_count", .num 5),
           ("topics_ids", .arr [.str "topic1", .str "topic2"])],
     .obj [("id", .str "subcat2"), ("name", .str "Cybersecurity"),
           ("description", .str "Digital security, threats, and protective measures"),
           ("keywords", .arr [.str "security", .str "hacking", .str "privacy"]),
           ("unread_count", .num 7),
           ("topics_ids", .arr [.str "topic3"])]])],
  [("id", .str "cat2"), ("name", .str "Business"),
   ("description", .str "Corporate news, markets, and economic developments"),
   ("keywords", .arr [.str "finance", .str "economy", .str "markets"]),
   ("image_urls", .arr []),
   ("topics_ids", .arr [.str "topic5", .str "topic6"]),
   ("unread_count", .num 8), ("priority", .num 1),
   ("subcategories", .arr [
     .obj [("id", .str "subcat3"), ("name", .str "Finance"),
           ("description", .str "Banking, investments, and financial markets"),
           ("keywords", .arr [.str "investing", .str "markets", .str "banking"]),
           ("unread_count", .num 3),
           ("topics_ids", .arr [.str "topic5"])]])],
  [("id", .str "cat3"), ("name", .str "Politics"),
   ("description", .str "Government affairs, policy, and political developments"),
   ("keywords", .arr [.str "government", .str "policy", .str "elections"]),
   ("image_urls", .arr []),
   ("topics_ids", .arr [.str "topic8", .str "topic9"]),
   ("unread_count", .num 15), ("priority", .num 3),
   ("subcategories", .arr [
     .obj [("id", .str "subcat4"), ("name", .str "International Relations"),
           ("description", .str "Diplomacy, global affairs, and international cooperation"),
           ("keywords", .arr [.str "diplomacy", .str "foreign policy", .str "international"]),
           ("unread_count", .num 6),
           ("topics_ids", .arr [.str "topic8", .str "topic9"])]])]]

/-- Model of `getSampleTopics()`: the fixed fallback topics. -/
def getSampleTopics : List Doc := [
  [("id", .str "topic1"), ("name", .str "Machine Learning"),
   ("description", .str "Statistical techniques enabling computers to improve based on experience"),
   ("keywords", .arr [.str "algorithms", .str "neural networks", .str "deep learning"]),
   ("articles_ids", .arr []), ("categories_ids", .arr [.str "cat1"]),
   ("related_topics_ids", .arr [.str "topic2"]), ("unread_count", .num 3)],
  [("id", .str "topic2"), ("name", .str "Natural Language Processing"),
   ("description", .str "Processing and analyzing human language with AI"),
   ("keywords", .arr [.str "NLP", .str "text analysis", .str "language models"]),
   ("articles_ids", .arr []), ("categories_ids", .arr [.str "cat1"]),
   ("related_topics_ids", .arr [.str "topic1"]), ("unread_count", .num 2)],
  [("id", .str "topic3"), ("name", .str "Data Privacy"),
   ("description", .str "Protecting personal and sensitive information"),
   ("keywords", .arr [.str "privacy", .str "data protection", .str "GDPR"]),
   ("articles_ids", .arr []), ("categories_ids", .arr [.str "cat1"]),
   ("related_topics_ids", .arr [.str "topic8"]), ("unread_count", .num 4)],
  [("id", .str "topic4"), ("name", .str "Cloud Computing"),
   ("description", .str "On-demand availability of computer system resources"),
   ("keywords", .arr [.str "cloud", .str "SaaS", .str "distributed computing"]),
   ("articles_ids", .arr []), ("categories_ids", .arr [.str "cat1"]),
   ("related_topics_ids", .arr []), ("unread_count", .num 1)],
  [("id", .str "topic5"), ("name", .str "Stock Market"),
   ("description", .str "News and analysis about equity markets"),
   ("keywords", .arr [.str "stocks", .str "equities", .str "trading"]),
   ("articles_ids", .arr []), ("categories_ids", .arr [.str "cat2"]),
   ("related_topics_ids", .arr [.str "topic9"]), ("unread_count", .num 2)],
  [("id", .str "topic6"), ("name", .str "Startups"),
   ("description", .str "Emerging companies and entrepreneurship"),
   ("keywords", .arr [.str "entrepreneurship", .str "venture capital", .str "innovation"]),
   ("articles_ids", .arr []), ("categories_ids", .arr [.str "cat2"]),
   ("related_topics_ids", .arr []), ("unread_count", .num 3)],
  [("id", .str "topic8"), ("name", .str "Diplomacy"),
   ("description", .str "International dialogue and negotiation between nations"),
   ("keywords", .arr [.str "international relations", .str "treaties", .str "negotiations"]),
   ("articles_ids", .arr []), ("categories_ids", .arr [.str "cat3"]),
   ("related_topics_ids", .arr [.str "topic9", .str "topic3"]), ("unread_count", .num 3)],
  [("id", .str "topic9"), ("name", .str "Trade Agreements"),
   ("description", .str "International trade policies and economic partnerships"),
   ("keywords", .arr [.str "trade", .str "tariffs", .str "economic cooperation"]),
   ("articles_ids", .arr []), ("categories_ids", .arr [.str "cat3"]),
   ("related_topics_ids", .arr [.str "topic5", .str "topic8"]), ("unread_count", .num 3)]]

/-- Outcome of an Express handler: a JSON response with an HTTP status,
or delegation to the error middleware via `next(error)`. -/
inductive HandlerOut (α : Type) where
  | resp (status : Nat) (body : α)
  | nextErr (msg : String)

/-- Body shape of the listing endpoints:
`{ <kind>: [...], count, pagination: { limit, skip } }`. -/
structure ListBody where
  items : List Doc
  count : Nat
  limit : Nat
  skip : Nat

/-- Environment of one listing request: whether `db.getModels()`
succeeds, whether the kind's model object and a listing method exist on
it, and what the awaited store query does — throws (`.error`), returns a
non-array (`.ok none`, e.g. `null`), or returns the documents
(`.ok (some docs)`). -/
structure ListEnv where
  handleOk : Bool
  modelPresent : Bool
  methodPresent : Bool
  query : Except String (Option (List Doc))

/-- The message `db.getModels()` throws before initialization. -/
def modelsNotInitialized : String := "Models not initialized. Call connect() first."

/-- Model of `getAllTopics`: falls back to the sample topics when the store
handle, the topics model or its listing method is unavailable; a thrown
query error (and a non-array result, whose `topics.length` read throws a
TypeError) reaches the outer catch and is passed to `next`. -/
def getAllTopics (env : ListEnv) (limit skip : Nat) : HandlerOut ListBody :=
  if !env.handleOk then
    .resp 200 ⟨getSampleTopics, getSampleTopics.length, limit, skip⟩
  else if !env.modelPresent then
    .resp 200 ⟨getSampleTopics, getSampleTopics.length, limit, skip⟩
  else if !env.methodPresent then
    .resp 200 ⟨getSampleTopics, getSampleTopics.length, limit, skip⟩
  else
    match env.query with
    | .error e => .nextErr e
    | .ok none => .nextErr "TypeError"
    | .ok (some l) => .resp 200 ⟨l, l.length, limit, skip⟩

/-- Model of `getAllCategories`: falls back to the sample categories when the
store handle, the model or the method is unavailable, and additionally
when the query throws or returns a non-array. -/
def getAllCategories (env : ListEnv) (limit skip : Nat) : HandlerOut ListBody :=
  if !env.handleOk then
    .resp 200 ⟨getSampleCategories, getSampleCategories.length, limit, skip⟩
  else if !env.modelPresent then
    .resp 200 ⟨getSampleCategories, getSampleCategories.length, limit, skip⟩
  else if !env.methodPresent then
    .resp 200 ⟨getSampleCategories, getSampleCategories.length, limit, skip⟩
  else
    match env.query with
    | .error _ => .resp 200 ⟨getSampleCategories, getSampleCategories.length, limit, skip⟩
    | .ok none => .resp 200 ⟨getSampleCategories, getSampleCategories.length, limit, skip⟩
    | .ok (some l) => .resp 200 ⟨l, l.length, limit, skip⟩

/-- Model of `getAllEvents`: no fallback path — a throwing `db.getModels()`, a
missing model or method (a TypeError at the call site), a thrown query
or a non-array result (TypeError at `events.length`) all reach the
single catch and are passed to `next`. The handler calls
`models.events.getAll(limit, skip)`, a method the `Event` model class
does not define (it exposes `getRecent`), so against the shipped model
the method-missing TypeError branch is the one taken. -/
def getAllEvents (env : ListEnv) (limit skip : Nat) : HandlerOut ListBody :=
  if !env.handleOk then .nextErr modelsNotInitialized
  else if !env.modelPresent then .nextErr "TypeError"
  else if !env.methodPresent then .nextErr "TypeError"
  else
    match env.query with
    | .error e => .nextErr e
    | .ok none => .nextErr "TypeError"
    | .ok (some l) => .resp 200 ⟨l, l.length, limit, skip⟩

/-- Model of `getAllNotes`: same structure as `getAllEvents` (the query is
`models.notes.getRecent(limit)`); no fallback path. -/
def getAllNotes (env : ListEnv) (limit skip : Nat) : HandlerOut ListBody :=
  if !env.handleOk then .nextErr modelsNotInitialized
  else if !env.modelPresent then .nextErr "TypeError"
  else if !env.methodPresent then .nextErr "TypeError"
  else
    match env.query with
    | .error e => .nextErr e
    | .ok none => .nextErr "TypeError"
    | .ok (some l) => .resp 200 ⟨l, l.length, limit, skip⟩

/-- The per-kind listing handler. -/
def getAllOfKind : Kind → ListEnv → Nat → Nat → HandlerOut ListBody
  | .topics => getAllTopics
  | .categories => getAllCategories
  | .events => getAllEvents
  | .notes => getAllNotes

/-! ## `searchEntities` -/

/-- Body of a successful search: the echoed query plus one list per
selected kind — no success/created/updated/errors envelope. -/
structure SearchBody where
  query : String
  topics : Option (List Doc)
  categories : Option (List Doc)
  events : Option (List Doc)
  notes : Option (List Doc)

/-- Outcome of `GET /entities/search`: 400 with an error body, a
delegated store failure, or 200 with the fan-out body. -/
inductive SearchOut where
  | badRequest (status : Nat) (message : String)
  | nextErr (msg : String)
  | ok (status : Nat) (body : SearchBody)

/-- Truthiness of an optional query-string parameter. -/
def truthyStr : Option String → Bool
  | some s => s ≠ ""
  | none => false

/-- The kind names searched by default. -/
def allTypeNames : List String := ["topics", "categories", "events", "notes"]

/-- Model of `types ? types.split(',').map(trim + lowercase) : all four`. -/
def parseSearchTypes (types : Option String) : List String :=
  match types with
  | some t => if t ≠ "" then (splitComma t).map (fun x => lowerStr (jsTrim x)) else allTypeNames
  | none => allTypeNames

/-- Model of `parseInt(req.query.limit) || 10` on the already-parsed parameter. -/
def searchLimit (limitParam : Option Nat) : Nat :=
  match limitParam with
  | some n => if n = 0 then 10 else n
  | none => 10

/-- Model of `searchEntities`: a falsy `q` is answered 400 before
`db.getModels()` is reached, so a broken store is never touched; with a
query, each selected kind is searched with the limit and skip 0 and the
response carries one list per selected kind. -/
def searchEntities (models? : Except String Store) (q types : Option String)
    (limitParam : Option Nat) : SearchOut :=
  if !truthyStr q then .badRequest 400 "Search query is required"
  else
    let qs := match q with | some s => s | none => ""
    let searchTypes := parseSearchTypes types
    let limit := searchLimit limitParam
    match models? with
    | .error e => .nextErr e
    | .ok st =>
        .ok 200
          { query := qs
            topics :=
              if searchTypes.contains "topics" then some (topicSearch st.topics qs limit 0)
              else none
            categories :=
              if searchTypes.contains "categories" then
                some (categorySearch st.categories qs limit 0)
              else none
            events :=
              if searchTypes.contains "events" then some (eventSearch st.events qs limit 0)
              else none
            notes :=
              if searchTypes.contains "notes" then some (noteSearch st.notes qs limit 0)
              else none }

/-! ## Association-list lemmas -/

theorem getField_setField_self (d : Doc) (k : String) (v : JVal) :
    getField (setField d k v) k = some v := by
  induction d with
  | nil => simp [setField, getField]
  | cons p ds ih =>
      by_cases hp : p.1 = k
      · simp [setField, getField, hp]
      · simp [setField, getField, hp, ih]

theorem getField_setField_ne (d : Doc) (k k2 : String) (v : JVal) (h : k2 ≠ k) :
    getField (setField d k v) k2 = getField d k2 := by
  induction d with
  | nil =>
      simp only [setField, getField]
      rw [if_neg (fun he => h he.symm)]
  | cons p ds ih =>
      by_cases hp : p.1 = k
      · have h2 : ¬(k = k2) := fun he => h he.symm
        simp [setField, getField, hp, h2]
      · by_cases hp2 : p.1 = k2
        · simp [setField, getField, hp, hp2, h]
        · simp [setField, getField, hp, hp2, ih]

theorem getField_eq_some_of_mem_nodupKeys {d : Doc} {p : String × JVal}
    (hnd : (d.map Prod.fst).Nodup) (hp : p ∈ d) : getField d p.1 = some p.2 := by
  induction d with
  | nil => cases hp
  | cons q ds ih =>
      rw [List.map_cons, List.nodup_cons] at hnd
      rcases List.mem_cons.mp hp with rfl | hp2
      · simp [getField]
      · have hq : q.1 ≠ p.1 := fun he =>
          hnd.1 (he ▸ List.mem_map.mpr ⟨p, hp2, rfl⟩)
        simp [getField, hq, ih hnd.2 hp2]

theorem keys_setField (d : Doc) (k : String) (v : JVal) :
    (setField d k v).map Prod.fst = d.map Prod.fst ∨
      (setField d k v).map Prod.fst = d.map Prod.fst ++ [k] := by
  induction d with
  | nil => simp [setField]
  | cons p ds ih =>
      by_cases hp : p.1 = k
      · simp [setField, hp]
      · rcases ih with h | h
        · exact Or.inl (by simp [setField, hp, h])
        · exact Or.inr (by simp [setField, hp, h])

theorem getField_none_keys {d : Doc} {k : String} (h : getField d k = none) :
    k ∉ d.map Prod.fst := by
  induction d with
  | nil => simp
  | cons p ds ih =>
      rw [getField] at h
      by_cases hp : p.1 = k
      · simp [hp] at h
      · simp only [if_neg hp] at h
        simp only [List.map_cons, List.mem_cons]
        rintro (rfl | hmem)
        · exact hp rfl
        · exact ih h hmem

theorem keys_setField_nodup {d : Doc} (k : String) (v : JVal)
    (hnd : (d.map Prod.fst).Nodup) : ((setField d k v).map Prod.fst).Nodup := by
  rcases keys_setField d k v with h | h
  · exact h ▸ hnd
  · rw [h]
    have hk : k ∉ d.map Prod.fst := by
      by_contra hmem
      rcases List.mem_map.mp hmem with ⟨p, hp, hpk⟩
      have : (setField d k v).map Prod.fst = d.map Prod.fst := by
        clear h hnd hmem
        induction d with
        | nil => cases hp
        | cons q ds ih =>
            rcases List.mem_cons.mp hp with rfl | hp2
            · simp [setField, hpk]
            · by_cases hq : q.1 = k
              · simp [setField, hq]
              · simp [setField, hq, ih hp2]
      rw [this] at h
      simpa using congrArg List.length h
    rw [List.nodup_append]
    refine ⟨hnd, List.nodup_singleton _, ?_⟩
    intro a ha hb
    rw [List.mem_singleton] at hb
    exact hk (hb ▸ ha)

theorem getField_mergeDoc_absent (u : Doc) (k : String) :
    ∀ d : Doc, (∀ p ∈ u, p.1 ≠ k) → getField (mergeDoc d u) k = getField d k := by
  induction u with
  | nil => intro d _; rfl
  | cons p rest ih =>
      intro d h
      have : mergeDoc d (p :: rest) = mergeDoc (setField d p.1 p.2) rest := rfl
      rw [this, ih _ (fun q hq => h q (List.mem_cons_of_mem p hq)),
        getField_setField_ne _ _ _ _ (fun he => h p (List.mem_cons_self p rest) he.symm)]

theorem getField_mergeDoc_of_nodupKeys (u : Doc) (k : String) (v : JVal) :
    ∀ d : Doc, (u.map Prod.fst).Nodup → getField u k = some v →
      getField (mergeDoc d u) k = some v := by
  induction u with
  | nil => intro d _ h; cases h
  | cons p rest ih =>
      intro d hnd hget
      rw [List.map_cons, List.nodup_cons] at hnd
      have hmerge : mergeDoc d (p :: rest) = mergeDoc (setField d p.1 p.2) rest := rfl
      rw [getField] at hget
      by_cases hp : p.1 = k
      · rw [if_pos hp] at hget
        rw [hmerge, getField_mergeDoc_absent rest k _ ?_, hp,
          getField_setField_self]
        · exact hget
        · intro q hq he
          exact hnd.1 (hp ▸ he ▸ List.mem_map.mpr ⟨q, hq, rfl⟩)
      · rw [if_neg hp] at hget
        rw [hmerge]
        exact ih (setField d p.1 p.2) hnd.2 hget

/-! ## Validator lemmas -/

theorem getField_some_mem {u : Doc} {k : String} {v : JVal}
    (h : getField u k = some v) : (k, v) ∈ u := by
  induction u with
  | nil => cases h
  | cons p ds ih =>
      rw [getField] at h
      by_cases hp : p.1 = k
      · rw [if_pos hp] at h
        injection h with h
        exact List.mem_cons.mpr (Or.inl (by rw [← hp, ← h]))
      · rw [if_neg hp] at h
        exact List.mem_cons_of_mem p (ih h)

theorem joiValidate_ok_value {schema : List SchemaField} {d value : Doc}
    (h : joiValidate schema d = .ok value) :
    value = schema.filterMap (fun f =>
      match getField d f.name with
      | none => none
      | some v => (checkField f.chk v).map (fun v2 => (f.name, v2))) := by
  simp only [joiValidate] at h
  split at h
  · injection h with h
    exact h.symm
  · cases h

theorem joiValidate_ok_getField {schema : List SchemaField} {d value : Doc}
    (h : joiValidate schema d = .ok value) {key : String} {v : JVal}
    (hget : getField value key = some v) :
    ∃ f ∈ schema, f.name = key ∧
      ∃ v0, getField d key = some v0 ∧ checkField f.chk v0 = some v := by
  have hmem := getField_some_mem hget
  rw [joiValidate_ok_value h] at hmem
  rcases List.mem_filterMap.mp hmem with ⟨f, hf, heq⟩
  refine ⟨f, hf, ?_⟩
  rcases hd : getField d f.name with _ | v0
  · rw [hd] at heq
    cases heq
  · rw [hd] at heq
    have heq2 : Option.map (fun v2 => (f.name, v2)) (checkField f.chk v0) = some (key, v) :=
      heq
    rcases Option.map_eq_some'.mp heq2 with ⟨v2, hchk, heq3⟩
    have hname : f.name = key := congrArg Prod.fst heq3
    have hval : v2 = v := congrArg Prod.snd heq3
    exact ⟨hname, v0, hname ▸ hd, hval ▸ hchk⟩

theorem filterMapSublistMap {α β : Type} (h : α → Option β) (f : α → β)
    (hh : ∀ a, h a = none ∨ h a = some (f a)) :
    ∀ l : List α, List.Sublist (l.filterMap h) (l.map f) := by
  intro l
  induction l with
  | nil => simp
  | cons a t ih =>
      rcases hh a with ha | ha
      · rw [List.filterMap_cons, ha, List.map_cons]
        exact ih.cons _
      · rw [List.filterMap_cons, ha, List.map_cons]
        exact ih.cons₂ _

theorem joiValidate_keys_sublist {schema : List SchemaField} {d value : Doc}
    (h : joiValidate schema d = .ok value) :
    List.Sublist (value.map Prod.fst) (schema.map SchemaField.name) := by
  rw [joiValidate_ok_value h, List.map_filterMap]
  refine filterMapSublistMap _ _ (fun f => ?_) schema
  rcases hd : getField d f.name with _ | v0
  · simp [hd]
  · rcases hchk : checkField f.chk v0 with _ | v2 <;> simp [hd, hchk]

theorem joiValidate_keys_nodup {schema : List SchemaField} {d value : Doc}
    (h : joiValidate schema d = .ok value)
    (hnd : (schema.map SchemaField.name).Nodup) : (value.map Prod.fst).Nodup :=
  (joiValidate_keys_sublist h).nodup hnd

theorem joiValidate_congr {schema : List SchemaField} {d d2 : Doc}
    (hag : ∀ f ∈ schema, getField d2 f.name = getField d f.name) :
    joiValidate schema d2 = joiValidate schema d := by
  unfold joiValidate
  have he : schema.filterMap (fun f =>
      match getField d2 f.name with
      | none => if f.required then some (f.name ++ " is required") else none
      | some v => if (checkField f.chk v).isSome then none
                  else some (f.name ++ " is invalid")) =
    schema.filterMap (fun f =>
      match getField d f.name with
      | none => if f.required then some (f.name ++ " is required") else none
      | some v => if (checkField f.chk v).isSome then none
                  else some (f.name ++ " is invalid")) :=
    List.filterMap_congr (fun f hf => by rw [hag f hf])
  have hv : schema.filterMap (fun f =>
      match getField d2 f.name with
      | none => none
      | some v => (checkField f.chk v).map (fun v2 => (f.name, v2))) =
    schema.filterMap (fun f =>
      match getField d f.name with
      | none => none
      | some v => (checkField f.chk v).map (fun v2 => (f.name, v2))) :=
    List.filterMap_congr (fun f hf => by rw [hag f hf])
  rw [he, hv]

theorem getField_append (d e : Doc) (k : String) :
    getField (d ++ e) k =
      match getField d k with
      | some v => some v
      | none => getField e k := by
  induction d with
  | nil => simp [getField]
  | cons p ds ih =>
      by_cases hp : p.1 = k
      · simp [getField, hp]
      · simp [getField, hp, ih]

/-! ## Controller lemmas -/

theorem pruneMap_ne_some_nil {α : Type} (f : Kind → Option (List α)) (k : Kind) :
    pruneMap f k ≠ some [] := by
  rcases h : f k with _ | l
  · simp [pruneMap, h]
  · cases l with
    | nil => simp [pruneMap, h]
    | cons a t => simp [pruneMap, h]

theorem pruneMap_eq_some {α : Type} {f : Kind → Option (List α)} {k : Kind} {l : List α}
    (h : pruneMap f k = some l) : f k = some l ∧ l ≠ [] := by
  rcases hf : f k with _ | l2
  · rw [pruneMap, hf] at h
    cases h
  · rw [pruneMap, hf] at h
    cases l2 with
    | nil => cases h
    | cons a t =>
        injection h with h
        exact ⟨h ▸ rfl, h ▸ (by simp)⟩

theorem pruneMap_keeps {α : Type} {f : Kind → Option (List α)} {k : Kind} {l : List α}
    (h : f k = some l) (hne : l ≠ []) : pruneMap f k = some l := by
  rw [pruneMap, h]
  cases l with
  | nil => exact absurd rfl hne
  | cons a t => rfl

theorem pruneMap_isSome {α : Type} {f : Kind → Option (List α)} {k : Kind}
    (h : (pruneMap f k).isSome) : ∃ l, f k = some l ∧ l ≠ [] := by
  rcases hp : pruneMap f k with _ | l
  · rw [hp] at h
    cases h
  · exact ⟨l, pruneMap_eq_some hp⟩

theorem kindModelCreate_doc (st : Store) (k : Kind) (ctr now : Nat) (d : Doc) :
    (kindModelCreate st k ctr now d).2.2 =
      some (((kindModelCreate ⟨[], [], [], []⟩ k ctr now d).2.2).getD []) := by
  cases k <;> rfl

/-- The document the create path stores and returns for a validated
value; since `create` computes the document from its argument alone, it
is read off against the empty store. `n` is the id-generation step at
which the controller drew `uuidv4`. -/
def controllerCreatedDoc (k : Kind) (now : Nat) (value : Doc) (n : Nat) : Doc :=
  ((kindModelCreate ⟨[], [], [], []⟩ k (n + 1) now
    (applyCreateDefaults k now value (uuidv4 n))).2.2).getD []

theorem processItem_invalid {k : Kind} {now : Nat} {st : Store} {ctr : Nat} {raw : Doc}
    {msgs : List String}
    (hval : kindValidate k raw (truthyOpt (getField raw "id")) = .error msgs) :
    processItem k now st ctr raw =
      (st, ctr, .failed ⟨raw, "Validation error: " ++ msgs.headD ""⟩) := by
  rw [processItem, hval]

theorem processItem_create {k : Kind} {now : Nat} {st : Store} {ctr : Nat} {raw value : Doc}
    (hval : kindValidate k raw (truthyOpt (getField raw "id")) = .ok value)
    (hid : truthyOpt (getField value "id") = false) :
    (processItem k now st ctr raw).2.2 =
      .created (controllerCreatedDoc k now value ctr) := by
  rw [processItem, hval]
  simp only [hid, Bool.false_eq_true, if_false]
  rw [kindModelCreate_doc]
  rfl

theorem processItems_cons (k : Kind) (now : Nat) (st : Store) (ctr : Nat) (d : Doc)
    (ds : List Doc) :
    (processItems k now st ctr (d :: ds)).2.2 =
      (processItem k now st ctr d).2.2 ::
        (processItems k now (processItem k now st ctr d).1
          (processItem k now st ctr d).2.1 ds).2.2 := rfl

theorem processItems_failed_mem {k : Kind} {now : Nat} {l : List Doc} {i : Doc}
    {msgs : List String} (hi : i ∈ l)
    (hval : kindValidate k i (truthyOpt (getField i "id")) = .error msgs) :
    ∀ st ctr, Outcome.failed ⟨i, "Validation error: " ++ msgs.headD ""⟩ ∈
      (processItems k now st ctr l).2.2 := by
  induction l with
  | nil => cases hi
  | cons d ds ih =>
      intro st ctr
      rw [processItems_cons]
      rcases List.mem_cons.mp hi with rfl | hi2
      · rw [processItem_invalid hval]
        exact List.mem_cons_self _ _
      · exact List.mem_cons_of_mem _ (ih hi2 _ _)

theorem processItems_created_mem {k : Kind} {now : Nat} {l : List Doc} {v value : Doc}
    (hv : v ∈ l)
    (hval : kindValidate k v (truthyOpt (getField v "id")) = .ok value)
    (hid : truthyOpt (getField value "id") = false) :
    ∀ st ctr, ∃ n, Outcome.created (controllerCreatedDoc k now value n) ∈
      (processItems k now st ctr l).2.2 := by
  induction l with
  | nil => cases hv
  | cons d ds ih =>
      intro st ctr
      rw [processItems_cons]
      rcases List.mem_cons.mp hv with rfl | hv2
      · exact ⟨ctr, by rw [processItem_create hval hid]; exact List.mem_cons_self _ _⟩
      · rcases ih hv2 (processItem k now st ctr d).1 (processItem k now st ctr d).2.1 with
          ⟨n, hn⟩
        exact ⟨n, List.mem_cons_of_mem _ hn⟩

theorem processBatch_cons_none {now : Nat} {k2 : Kind} {ks : List Kind} {st : Store}
    {ctr : Nat} {body : Batch} (h : body k2 = none) :
    processBatch now (k2 :: ks) st ctr body = processBatch now ks st ctr body := by
  rw [processBatch, h]

theorem processBatch_cons_empty {now : Nat} {k2 : Kind} {ks : List Kind} {st : Store}
    {ctr : Nat} {body : Batch} {items : List Doc} (h : body k2 = some items)
    (he : items.isEmpty = true) :
    processBatch now (k2 :: ks) st ctr body = processBatch now ks st ctr body := by
  rw [processBatch, h]
  simp [he]

theorem processBatch_cons_run {now : Nat} {k2 : Kind} {ks : List Kind} {st : Store}
    {ctr : Nat} {body : Batch} {items : List Doc} (h : body k2 = some items)
    (he : items.isEmpty = false) :
    processBatch now (k2 :: ks) st ctr body =
      ((processBatch now ks (processItems k2 now st ctr items).1
          (processItems k2 now st ctr items).2.1 body).1,
        (processBatch now ks (processItems k2 now st ctr items).1
          (processItems k2 now st ctr items).2.1 body).2.1,
        Function.update
          (processBatch now ks (processItems k2 now st ctr items).1
            (processItems k2 now st ctr items).2.1 body).2.2 k2
          (some (processItems k2 now st ctr items).2.2)) := by
  rw [processBatch, h]
  simp [he]

theorem processBatch_some {now : Nat} {body : Batch} {k : Kind} :
    ∀ {ks : List Kind} {st : Store} {ctr : Nat} {os : List Outcome},
    (processBatch now ks st ctr body).2.2 k = some os →
    ∃ l st2 ctr2, body k = some l ∧ l.isEmpty = false ∧
      os = (processItems k now st2 ctr2 l).2.2 := by
  intro ks
  induction ks with
  | nil =>
      intro st ctr os h
      simp [processBatch] at h
  | cons k2 ks ih =>
      intro st ctr os h
      rcases hb : body k2 with _ | items
      · rw [processBatch_cons_none hb] at h
        exact ih h
      · rcases he : items.isEmpty with _ | _
        · rw [processBatch_cons_run hb he] at h
          by_cases hk : k = k2
          · subst hk
            have h2 : Function.update
                (processBatch now ks (processItems k now st ctr items).1
                  (processItems k now st ctr items).2.1 body).2.2 k
                (some (processItems k now st ctr items).2.2) k = some os := h
            rw [Function.update_same] at h2
            injection h2 with h2
            exact ⟨items, st, ctr, hb, he, h2.symm⟩
          · have h2 : Function.update
                (processBatch now ks (processItems k2 now st ctr items).1
                  (processItems k2 now st ctr items).2.1 body).2.2 k2
                (some (processItems k2 now st ctr items).2.2) k = some os := h
            rw [Function.update_noteq hk] at h2
            exact ih h2
        · rw [processBatch_cons_empty hb he] at h
          exact ih h

theorem processBatch_at {now : Nat} {body : Batch} {k : Kind} {l : List Doc}
    (hb : body k = some l) (he : l.isEmpty = false) :
    ∀ {ks : List Kind} (st : Store) (ctr : Nat), k ∈ ks →
    ∃ st2 ctr2, (processBatch now ks st ctr body).2.2 k =
      some ((processItems k now st2 ctr2 l).2.2) := by
  intro ks
  induction ks with
  | nil =>
      intro st ctr hk
      cases hk
  | cons k2 ks ih =>
      intro st ctr hk
      by_cases hkk : k = k2
      · subst hkk
        rw [processBatch_cons_run hb he]
        refine ⟨st, ctr, ?_⟩
        have : Function.update
            (processBatch now ks (processItems k now st ctr l).1
              (processItems k now st ctr l).2.1 body).2.2 k
            (some (processItems k now st ctr l).2.2) k =
          some (processItems k now st ctr l).2.2 := Function.update_same _ _ _
        exact this
      · have hk2 : k ∈ ks := by
          rcases List.mem_cons.mp hk with h | h
          · exact absurd h hkk
          · exact h
        rcases hb2 : body k2 with _ | items
        · rw [processBatch_cons_none hb2]
          exact ih st ctr hk2
        · rcases he2 : items.isEmpty with _ | _
          · rw [processBatch_cons_run hb2 he2]
            rcases ih (processItems k2 now st ctr items).1
              (processItems k2 now st ctr items).2.1 hk2 with ⟨st2, ctr2, hm⟩
            refine ⟨st2, ctr2, ?_⟩
            have : Function.update
                (processBatch now ks (processItems k2 now st ctr items).1
                  (processItems k2 now st ctr items).2.1 body).2.2 k2
                (some (processItems k2 now st ctr items).2.2) k =
              (processBatch now ks (processItems k2 now st ctr items).1
                (processItems k2 now st ctr items).2.1 body).2.2 k :=
              Function.update_noteq hkk _ _
            exact this.trans hm
          · rw [processBatch_cons_empty hb2 he2]
            exact ih st ctr hk2

theorem kindOrder_all_false {f : Kind → Bool} {k : Kind} (hf : f k = false) :
    kindOrder.all f = false := by
  cases k <;> simp [kindOrder, hf]

theorem processItems_length (k : Kind) (now : Nat) :
    ∀ (st : Store) (ctr : Nat) (l : List Doc),
    (processItems k now st ctr l).2.2.length = l.length := by
  intro st ctr l
  induction l generalizing st ctr with
  | nil => rfl
  | cons d ds ih =>
      rw [processItems_cons, List.length_cons, List.length_cons, ih]

theorem outcome_partition :
    ∀ os : List Outcome,
    (os.filterMap createdOf).length + (os.filterMap updatedOf).length +
      (os.filterMap failedOf).length = os.length := by
  intro os
  induction os with
  | nil => rfl
  | cons o os ih =>
      cases o <;>
        simp only [List.filterMap_cons, createdOf, updatedOf, failedOf,
          List.length_cons] <;>
        omega

theorem pruneMap_getD {α : Type} (f : Kind → Option (List α)) (k : Kind) :
    (pruneMap f k).getD [] = (f k).getD [] := by
  unfold pruneMap
  rcases h : f k with _ | l
  · rfl
  · cases l <;> rfl

/-! ## Claim theorems -/

/-- C1 (amended): in a `createOrUpdateEntities` batch whose list for a kind
holds a syntactically valid item and an invalid item, the invalid item
appears as a `{data, error}` entry in that kind's `errors` list regardless
of position, and processing is not aborted — the kind's `created`,
`updated` and `errors` lists together hold exactly one entry per posted
item; the valid item appears in the kind's `created` list when its
validated value carries no truthy `id` (the create path; with a truthy but
unknown `id` the program instead places it in `errors` as a not-found
entry, refuting the original claim — see the counterexample). The pruned
errors object then has a key, so `success` is false and the HTTP status
is 207. -/
theorem createOrUpdate_partial_failure_isolation
    (st : Store) (ctr now : Nat) (body : Batch) (k : Kind) (l : List Doc)
    (v i value : Doc) (msgs : List String)
    (hbk : body k = some l) (hv : v ∈ l) (hi : i ∈ l)
    (hval : kindValidate k v (truthyOpt (getField v "id")) = .ok value)
    (hvid : truthyOpt (getField value "id") = false)
    (hinv : kindValidate k i (truthyOpt (getField i "id")) = .error msgs) :
    (∃ cl, (createOrUpdateEntities st ctr now body).2.2.created k = some cl ∧
      ∃ n, controllerCreatedDoc k now value n ∈ cl) ∧
    (∃ el, (createOrUpdateEntities st ctr now body).2.2.errors k = some el ∧
      (⟨i, "Validation error: " ++ msgs.headD ""⟩ : ErrEntry) ∈ el) ∧
    (((createOrUpdateEntities st ctr now body).2.2.created k).getD []).length +
        (((createOrUpdateEntities st ctr now body).2.2.updated k).getD []).length +
        (((createOrUpdateEntities st ctr now body).2.2.errors k).getD []).length =
      l.length ∧
    (createOrUpdateEntities st ctr now body).2.2.success = false ∧
    (createOrUpdateEntities st ctr now body).2.2.status = 207 := by
  have he : l.isEmpty = false := by
    cases l with
    | nil => cases hv
    | cons a t => rfl
  have hkmem : k ∈ kindOrder := by cases k <;> simp [kindOrder]
  rcases processBatch_at hbk he st ctr hkmem with ⟨st2, ctr2, hm⟩
  have hcreated : (createOrUpdateEntities st ctr now body).2.2.created =
      pruneMap (fun k2 => ((processBatch now kindOrder st ctr body).2.2 k2).map
        (List.filterMap createdOf)) := rfl
  have herrors : (createOrUpdateEntities st ctr now body).2.2.errors =
      pruneMap (fun k2 => ((processBatch now kindOrder st ctr body).2.2 k2).map
        (List.filterMap failedOf)) := rfl
  rcases processItems_created_mem hv hval hvid st2 ctr2 with ⟨n, hnmem⟩
  have hcl : ((processBatch now kindOrder st ctr body).2.2 k).map
      (List.filterMap createdOf) =
      some (((processItems k now st2 ctr2 l).2.2).filterMap createdOf) := by
    rw [hm]
    rfl
  have hclmem : controllerCreatedDoc k now value n ∈
      ((processItems k now st2 ctr2 l).2.2).filterMap createdOf :=
    List.mem_filterMap.mpr ⟨.created (controllerCreatedDoc k now value n), hnmem, rfl⟩
  have hfmem := @processItems_failed_mem k now l i msgs hi hinv st2 ctr2
  have hel : ((processBatch now kindOrder st ctr body).2.2 k).map
      (List.filterMap failedOf) =
      some (((processItems k now st2 ctr2 l).2.2).filterMap failedOf) := by
    rw [hm]
    rfl
  have helmem : (⟨i, "Validation error: " ++ msgs.headD ""⟩ : ErrEntry) ∈
      ((processItems k now st2 ctr2 l).2.2).filterMap failedOf :=
    List.mem_filterMap.mpr ⟨.failed ⟨i, "Validation error: " ++ msgs.headD ""⟩, hfmem, rfl⟩
  have herrk : (createOrUpdateEntities st ctr now body).2.2.errors k =
      some (((processItems k now st2 ctr2 l).2.2).filterMap failedOf) := by
    rw [herrors]
    exact pruneMap_keeps hel (List.ne_nil_of_mem helmem)
  have hsucc : (createOrUpdateEntities st ctr now body).2.2.success =
      kindOrder.all (fun k2 =>
        ((createOrUpdateEntities st ctr now body).2.2.errors k2).isNone) := rfl
  have hsuccf : (createOrUpdateEntities st ctr now body).2.2.success = false := by
    rw [hsucc]
    exact kindOrder_all_false (by rw [herrk]; rfl)
  have hupdated : (createOrUpdateEntities st ctr now body).2.2.updated =
      pruneMap (fun k2 => ((processBatch now kindOrder st ctr body).2.2 k2).map
        (List.filterMap updatedOf)) := rfl
  refine ⟨⟨_, ?_, n, hclmem⟩, ⟨_, herrk, helmem⟩, ?_, hsuccf, ?_⟩
  · rw [hcreated]
    exact pruneMap_keeps hcl (List.ne_nil_of_mem hclmem)
  · have hgc : ((createOrUpdateEntities st ctr now body).2.2.created k).getD [] =
        ((processItems k now st2 ctr2 l).2.2).filterMap createdOf := by
      rw [hcreated, pruneMap_getD]
      simp only [hm, Option.map_some', Option.getD_some]
    have hgu : ((createOrUpdateEntities st ctr now body).2.2.updated k).getD [] =
        ((processItems k now st2 ctr2 l).2.2).filterMap updatedOf := by
      rw [hupdated, pruneMap_getD]
      simp only [hm, Option.map_some', Option.getD_some]
    have hge : ((createOrUpdateEntities st ctr now body).2.2.errors k).getD [] =
        ((processItems k now st2 ctr2 l).2.2).filterMap failedOf := by
      rw [herrors, pruneMap_getD]
      simp only [hm, Option.map_some', Option.getD_some]
    rw [hgc, hgu, hge, outcome_partition, processItems_length]
  · have hstat : (createOrUpdateEntities st ctr now body).2.2.status =
        if (createOrUpdateEntities st ctr now body).2.2.success then 200 else 207 := rfl
    rw [hstat, hsuccf]
    rfl

/-- Concrete batch for the C1 witness: one valid and one invalid topic. -/
def batchC1 : Batch := fun k =>
  match k with
  | .topics => some [[("name", JVal.str "AI")], [("invalid", JVal.str "x")]]
  | _ => none

/-- Witness for C1 at a concrete batch against the empty store. -/
theorem createOrUpdate_partial_failure_isolation_witness :
    (∃ cl, (createOrUpdateEntities ⟨[], [], [], []⟩ 0 5 batchC1).2.2.created .topics =
        some cl ∧
      ∃ n, controllerCreatedDoc .topics 5 [("name", JVal.str "AI")] n ∈ cl) ∧
    (∃ el, (createOrUpdateEntities ⟨[], [], [], []⟩ 0 5 batchC1).2.2.errors .topics =
        some el ∧
      (⟨[("invalid", JVal.str "x")],
        "Validation error: " ++ (["name is required"] : List String).headD ""⟩ :
          ErrEntry) ∈ el) ∧
    (((createOrUpdateEntities ⟨[], [], [], []⟩ 0 5 batchC1).2.2.created .topics).getD
          []).length +
        (((createOrUpdateEntities ⟨[], [], [], []⟩ 0 5 batchC1).2.2.updated .topics).getD
          []).length +
        (((createOrUpdateEntities ⟨[], [], [], []⟩ 0 5 batchC1).2.2.errors .topics).getD
          []).length = 2 ∧
    (createOrUpdateEntities ⟨[], [], [], []⟩ 0 5 batchC1).2.2.success = false ∧
    (createOrUpdateEntities ⟨[], [], [], []⟩ 0 5 batchC1).2.2.status = 207 :=
  createOrUpdate_partial_failure_isolation ⟨[], [], [], []⟩ 0 5 batchC1 .topics
    [[("name", JVal.str "AI")], [("invalid", JVal.str "x")]]
    [("name", JVal.str "AI")] [("invalid", JVal.str "x")] [("name", JVal.str "AI")]
    ["name is required"] rfl (List.mem_cons_self _ _)
    (List.mem_cons_of_mem _ (List.mem_cons_self _ _)) rfl rfl rfl

/-- Concrete batch refuting C1 as originally stated: the topics list holds
a syntactically valid update item (id `"zzz"`, unknown in the store) and
an invalid item. -/
def batchC1cx : Batch := fun k =>
  match k with
  | .topics => some [[("id", JVal.str "zzz"), ("name", JVal.str "x")],
                     [("invalid", JVal.str "x")]]
  | _ => none

/-- C1 counterexample: the first topics item is syntactically valid (its
validation succeeds), yet against the empty store it appears in neither
`created` nor `updated` — the unknown id sends it to `errors` as a
not-found entry, next to the invalid item's validation entry. -/
theorem createOrUpdate_valid_item_errors_counterexample :
    validateTopic [("id", JVal.str "zzz"), ("name", JVal.str "x")] true =
      .ok [("id", JVal.str "zzz"), ("name", JVal.str "x")] ∧
    (createOrUpdateEntities ⟨[], [], [], []⟩ 0 5 batchC1cx).2.2.created .topics =
      none ∧
    (createOrUpdateEntities ⟨[], [], [], []⟩ 0 5 batchC1cx).2.2.updated .topics =
      none ∧
    (createOrUpdateEntities ⟨[], [], [], []⟩ 0 5 batchC1cx).2.2.errors .topics =
      some [⟨[("id", JVal.str "zzz"), ("name", JVal.str "x")],
              "Topic with ID zzz not found"⟩,
            ⟨[("invalid", JVal.str "x")], "Validation error: name is required"⟩] ∧
    (createOrUpdateEntities ⟨[], [], [], []⟩ 0 5 batchC1cx).2.2.success = false ∧
    (createOrUpdateEntities ⟨[], [], [], []⟩ 0 5 batchC1cx).2.2.status = 207 :=
  ⟨rfl, rfl, rfl, rfl, rfl, rfl⟩

theorem respMap_present {α : Type} {st : Store} {ctr now : Nat} {body : Batch} {k : Kind}
    {g : Outcome → Option α}
    (h : ((pruneMap (fun k2 => ((processBatch now kindOrder st ctr body).2.2 k2).map
      (List.filterMap g))) k).isSome = true) :
    ∃ l, body k = some l ∧ l ≠ [] := by
  rcases pruneMap_isSome h with ⟨l2, hf, hne⟩
  rcases Option.map_eq_some'.mp hf with ⟨os, hos, _⟩
  rcases processBatch_some hos with ⟨l, st2, ctr2, hbk, hemp, _⟩
  refine ⟨l, hbk, ?_⟩
  intro hnil
  rw [hnil] at hemp
  cases hemp

/-- C5: a kind key appears under `created`, `updated` or `errors` of the
`createOrUpdateEntities` response only when the request carried a
non-empty list for that kind, and no per-kind value of the response is
an empty array. -/
theorem createOrUpdate_selective_and_pruned
    (st : Store) (ctr now : Nat) (body : Batch) (k : Kind) :
    ((createOrUpdateEntities st ctr now body).2.2.created k ≠ some [] ∧
      (createOrUpdateEntities st ctr now body).2.2.updated k ≠ some [] ∧
      (createOrUpdateEntities st ctr now body).2.2.errors k ≠ some []) ∧
    (((createOrUpdateEntities st ctr now body).2.2.created k).isSome = true →
      ∃ l, body k = some l ∧ l ≠ []) ∧
    (((createOrUpdateEntities st ctr now body).2.2.updated k).isSome = true →
      ∃ l, body k = some l ∧ l ≠ []) ∧
    (((createOrUpdateEntities st ctr now body).2.2.errors k).isSome = true →
      ∃ l, body k = some l ∧ l ≠ []) := by
  have hcreated : (createOrUpdateEntities st ctr now body).2.2.created =
      pruneMap (fun k2 => ((processBatch now kindOrder st ctr body).2.2 k2).map
        (List.filterMap createdOf)) := rfl
  have hupdated : (createOrUpdateEntities st ctr now body).2.2.updated =
      pruneMap (fun k2 => ((processBatch now kindOrder st ctr body).2.2 k2).map
        (List.filterMap updatedOf)) := rfl
  have herrors : (createOrUpdateEntities st ctr now body).2.2.errors =
      pruneMap (fun k2 => ((processBatch now kindOrder st ctr body).2.2 k2).map
        (List.filterMap failedOf)) := rfl
  refine ⟨⟨?_, ?_, ?_⟩, ?_, ?_, ?_⟩
  · rw [hcreated]; exact pruneMap_ne_some_nil _ k
  · rw [hupdated]; exact pruneMap_ne_some_nil _ k
  · rw [herrors]; exact pruneMap_ne_some_nil _ k
  · rw [hcreated]; exact respMap_present
  · rw [hupdated]; exact respMap_present
  · rw [herrors]; exact respMap_present

/-- Concrete batch for the C5 witness. -/
def batchC5 : Batch := fun k =>
  match k with
  | .topics => some [[("name", JVal.str "AI")]]
  | _ => none

/-- Witness for C5: with only a topics list posted, the topics key is
present because the request carried it non-empty, and no response value
is an empty array. -/
theorem createOrUpdate_selective_and_pruned_witness :
    ((createOrUpdateEntities ⟨[], [], [], []⟩ 0 5 batchC5).2.2.created .topics ≠
      some []) ∧
    (∃ l, batchC5 .topics = some l ∧ l ≠ []) :=
  ⟨(createOrUpdate_selective_and_pruned ⟨[], [], [], []⟩ 0 5 batchC5 .topics).1.1,
    (createOrUpdate_selective_and_pruned ⟨[], [], [], []⟩ 0 5 batchC5 .topics).2.1 rfl⟩

/-! ## Create-path field lemmas -/

theorem jor_falsy {x : Option JVal} (h : truthyOpt x = false) (b : JVal) : jor x b = b := by
  cases x with
  | none => rfl
  | some v =>
      rw [truthyOpt] at h
      rw [jor, if_neg (by rw [h]; exact Bool.false_ne_true)]

theorem jor_truthy {x : JVal} (h : x.truthy = true) (b : JVal) : jor (some x) b = x := by
  rw [jor, if_pos h]

theorem uuidv4_ne_empty (n : Nat) : uuidv4 n ≠ "" := by
  intro h
  have hl := congrArg String.length h
  rw [uuidv4, String.length_append] at hl
  have : ("uuid-" : String).length = 5 := rfl
  rw [this] at hl
  simp at hl

theorem truthy_uuid (n : Nat) : JVal.truthy (.str (uuidv4 n)) = true := by
  rw [JVal.truthy]
  simpa using uuidv4_ne_empty n

theorem truthy_jor_of_truthy {x : Option JVal} {b : JVal} (hb : b.truthy = true) :
    (jor x b).truthy = true := by
  cases x with
  | none => exact hb
  | some v =>
      rw [jor]
      by_cases hv : v.truthy = true
      · rw [if_pos hv]; exact hv
      · rw [if_neg hv]; exact hb

theorem truthyOpt_some (v : JVal) : truthyOpt (some v) = v.truthy := rfl

theorem jor_idem (x : Option JVal) (b : JVal) : jor (some (jor x b)) b = jor x b := by
  by_cases h : (jor x b).truthy = true
  · exact jor_truthy h b
  · rw [jor, if_neg h]
    cases x with
    | none => rfl
    | some v =>
        rw [jor] at h ⊢
        by_cases hv : v.truthy = true
        · rw [if_pos hv] at h
          exact absurd hv h
        · rw [if_neg hv]

theorem createdDoc_defaults_topics (now : Nat) (value : Doc) (n : Nat)
    (hvid : truthyOpt (getField value "id") = false) :
    getField (controllerCreatedDoc .topics now value n) "unread_count" =
      some (jor (getField value "unread_count") (.num 0)) ∧
    getField (controllerCreatedDoc .topics now value n) "priority" =
      some (jor (getField value "priority") (.num 0)) := by
  simp +decide [controllerCreatedDoc, kindModelCreate, topicModelCreate,
    applyCreateDefaults, getField_setField_self, getField_setField_ne,
    jor_falsy hvid, truthy_uuid, truthyOpt_some]

theorem createdDoc_defaults_categories (now : Nat) (value : Doc) (n : Nat)
    (hvid : truthyOpt (getField value "id") = false) :
    getField (controllerCreatedDoc .categories now value n) "unread_count" =
      some (jor (getField value "unread_count") (.num 0)) ∧
    getField (controllerCreatedDoc .categories now value n) "priority" =
      some (jor (getField value "priority") (.num 0)) := by
  by_cases hs : truthyOpt (getField value "subcategories") = true <;>
    simp +decide [controllerCreatedDoc, kindModelCreate, categoryModelCreate,
      applyCreateDefaults, getField_setField_self, getField_setField_ne,
      jor_falsy hvid, truthy_uuid, truthyOpt_some, hs]

theorem createdDoc_defaults_events (now : Nat) (value : Doc) (n : Nat)
    (hvid : truthyOpt (getField value "id") = false) :
    getField (controllerCreatedDoc .events now value n) "unread_count" =
      some (jor (getField value "unread_count") (.num 0)) ∧
    getField (controllerCreatedDoc .events now value n) "priority" =
      some (jor (getField value "priority") (.num 0)) := by
  by_cases hs : truthyOpt (getField value "timeline") = true <;>
    simp +decide [controllerCreatedDoc, kindModelCreate, eventModelCreate,
      applyCreateDefaults, getField_setField_self, getField_setField_ne,
      jor_falsy hvid, truthy_uuid, truthyOpt_some, hs]

theorem createdDoc_defaults_notes (now : Nat) (value : Doc) (n : Nat)
    (hvid : truthyOpt (getField value "id") = false) :
    getField (controllerCreatedDoc .notes now value n) "created_at" =
      some (jor (getField value "created_at") (.time now)) ∧
    getField (controllerCreatedDoc .notes now value n) "updated_at" =
      some (jor (getField value "updated_at") (.time now)) ∧
    getField (controllerCreatedDoc .notes now value n) "is_archived" =
      some (jor (getField value "is_archived") (.bool false)) ∧
    getField (controllerCreatedDoc .notes now value n) "priority" =
      getField value "priority" ∧
    getField (controllerCreatedDoc .notes now value n) "unread_count" =
      getField value "unread_count" := by
  simp +decide [controllerCreatedDoc, kindModelCreate, noteModelCreate,
    applyCreateDefaults, getField_setField_self, getField_setField_ne,
    jor_falsy hvid, truthy_uuid, truthyOpt_some, jor_idem, uuidv4_ne_empty n]

/-- C2 (amended): an entity created through `createOrUpdateEntities`
without a truthy `id` receives `unread_count = 0` and `priority = 0`
defaults only for topics, categories and events; a created Note instead
receives `created_at`/`updated_at` stamped with the request time and
`is_archived = false` when absent, while its `priority` and
`unread_count` are stored exactly as validated — a Note posted without
`priority` is stored with no `priority` field. -/
theorem createOrUpdate_create_defaults
    (st : Store) (ctr now : Nat) (body : Batch) (k : Kind) (l : List Doc)
    (v value : Doc)
    (hbk : body k = some l) (hv : v ∈ l)
    (hval : kindValidate k v (truthyOpt (getField v "id")) = .ok value)
    (hvid : truthyOpt (getField value "id") = false) :
    ∃ cl, (createOrUpdateEntities st ctr now body).2.2.created k = some cl ∧
      ∃ n, controllerCreatedDoc k now value n ∈ cl ∧
        (k ≠ .notes →
          getField (controllerCreatedDoc k now value n) "unread_count" =
            some (jor (getField value "unread_count") (.num 0)) ∧
          getField (controllerCreatedDoc k now value n) "priority" =
            some (jor (getField value "priority") (.num 0))) ∧
        (k = .notes →
          getField (controllerCreatedDoc k now value n) "created_at" =
            some (jor (getField value "created_at") (.time now)) ∧
          getField (controllerCreatedDoc k now value n) "updated_at" =
            some (jor (getField value "updated_at") (.time now)) ∧
          getField (controllerCreatedDoc k now value n) "is_archived" =
            some (jor (getField value "is_archived") (.bool false)) ∧
          getField (controllerCreatedDoc k now value n) "priority" =
            getField value "priority" ∧
          getField (controllerCreatedDoc k now value n) "unread_count" =
            getField value "unread_count") := by
  have he : l.isEmpty = false := by
    cases l with
    | nil => cases hv
    | cons a t => rfl
  have hkmem : k ∈ kindOrder := by cases k <;> simp [kindOrder]
  rcases processBatch_at hbk he st ctr hkmem with ⟨st2, ctr2, hm⟩
  have hcreated : (createOrUpdateEntities st ctr now body).2.2.created =
      pruneMap (fun k2 => ((processBatch now kindOrder st ctr body).2.2 k2).map
        (List.filterMap createdOf)) := rfl
  rcases processItems_created_mem hv hval hvid st2 ctr2 with ⟨n, hnmem⟩
  have hclmem : controllerCreatedDoc k now value n ∈
      ((processItems k now st2 ctr2 l).2.2).filterMap createdOf :=
    List.mem_filterMap.mpr ⟨.created (controllerCreatedDoc k now value n), hnmem, rfl⟩
  have hcl : ((processBatch now kindOrder st ctr body).2.2 k).map
      (List.filterMap createdOf) =
      some (((processItems k now st2 ctr2 l).2.2).filterMap createdOf) := by
    rw [hm]
    rfl
  refine ⟨_, ?_, n, hclmem, ?_, ?_⟩
  · rw [hcreated]
    exact pruneMap_keeps hcl (List.ne_nil_of_mem hclmem)
  · intro hne
    cases k with
    | topics => exact createdDoc_defaults_topics now value n hvid
    | categories => exact createdDoc_defaults_categories now value n hvid
    | events => exact createdDoc_defaults_events now value n hvid
    | notes => exact absurd rfl hne
  · intro hke
    subst hke
    exact createdDoc_defaults_notes now value n hvid

/-- Concrete batch for the C2 counterexample and witness: one note
posted without a `priority` field. -/
def batchC2 : Batch := fun k =>
  match k with
  | .notes => some [[("content", JVal.str "hi"), ("reference_type", JVal.str "article"),
      ("reference_id", JVal.str "a1")]]
  | _ => none

/-- The document the C2 batch stores for its note. -/
def noteDocC2 : Doc :=
  [("content", JVal.str "hi"), ("reference_type", JVal.str "article"),
   ("reference_id", JVal.str "a1"), ("id", JVal.str "uuid-0"),
   ("created_at", JVal.time 5), ("updated_at", JVal.time 5),
   ("is_archived", JVal.bool false), ("tags", JVal.arr []),
   ("metadata", JVal.obj [])]

/-- C2 counterexample: a Note created without a `priority` field is
persisted with no `priority` field at all (and no `unread_count`), not
with `priority = 0` as the claim asserts. -/
theorem noteCreate_priority_counterexample :
    (createOrUpdateEntities ⟨[], [], [], []⟩ 0 5 batchC2).2.2.created .notes =
      some [noteDocC2] ∧
    (createOrUpdateEntities ⟨[], [], [], []⟩ 0 5 batchC2).1.notes = [noteDocC2] ∧
    getField noteDocC2 "priority" = none ∧
    getField noteDocC2 "unread_count" = none :=
  ⟨rfl, rfl, rfl, rfl⟩

/-- Witness for the amended C2 at the concrete note batch. -/
theorem createOrUpdate_create_defaults_witness :
    ∃ cl, (createOrUpdateEntities ⟨[], [], [], []⟩ 0 5 batchC2).2.2.created .notes =
        some cl ∧
      ∃ n, controllerCreatedDoc .notes 5
          [("content", JVal.str "hi"), ("reference_type", JVal.str "article"),
           ("reference_id", JVal.str "a1")] n ∈ cl ∧
        (Kind.notes ≠ Kind.notes →
          getField (controllerCreatedDoc .notes 5
            [("content", JVal.str "hi"), ("reference_type", JVal.str "article"),
             ("reference_id", JVal.str "a1")] n) "unread_count" =
            some (jor (getField [("content", JVal.str "hi"),
              ("reference_type", JVal.str "article"),
              ("reference_id", JVal.str "a1")] "unread_count") (.num 0)) ∧
          getField (controllerCreatedDoc .notes 5
            [("content", JVal.str "hi"), ("reference_type", JVal.str "article"),
             ("reference_id", JVal.str "a1")] n) "priority" =
            some (jor (getField [("content", JVal.str "hi"),
              ("reference_type", JVal.str "article"),
              ("reference_id", JVal.str "a1")] "priority") (.num 0))) ∧
        (Kind.notes = Kind.notes →
          getField (controllerCreatedDoc .notes 5
            [("content", JVal.str "hi"), ("reference_type", JVal.str "article"),
             ("reference_id", JVal.str "a1")] n) "created_at" =
            some (jor (getField [("content", JVal.str "hi"),
              ("reference_type", JVal.str "article"),
              ("reference_id", JVal.str "a1")] "created_at") (.time 5)) ∧
          getField (controllerCreatedDoc .notes 5
            [("content", JVal.str "hi"), ("reference_type", JVal.str "article"),
             ("reference_id", JVal.str "a1")] n) "updated_at" =
            some (jor (getField [("content", JVal.str "hi"),
              ("reference_type", JVal.str "article"),
              ("reference_id", JVal.str "a1")] "updated_at") (.time 5)) ∧
          getField (controllerCreatedDoc .notes 5
            [("content", JVal.str "hi"), ("reference_type", JVal.str "article"),
             ("reference_id", JVal.str "a1")] n) "is_archived" =
            some (jor (getField [("content", JVal.str "hi"),
              ("reference_type", JVal.str "article"),
              ("reference_id", JVal.str "a1")] "is_archived") (.bool false)) ∧
          getField (controllerCreatedDoc .notes 5
            [("content", JVal.str "hi"), ("reference_type", JVal.str "article"),
             ("reference_id", JVal.str "a1")] n) "priority" =
            getField [("content", JVal.str "hi"),
              ("reference_type", JVal.str "article"),
              ("reference_id", JVal.str "a1")] "priority" ∧
          getField (controllerCreatedDoc .notes 5
            [("content", JVal.str "hi"), ("reference_type", JVal.str "article"),
             ("reference_id", JVal.str "a1")] n) "unread_count" =
            getField [("content", JVal.str "hi"),
              ("reference_type", JVal.str "article"),
              ("reference_id", JVal.str "a1")] "unread_count") :=
  createOrUpdate_create_defaults ⟨[], [], [], []⟩ 0 5 batchC2 .notes
    [[("content", JVal.str "hi"), ("reference_type", JVal.str "article"),
      ("reference_id", JVal.str "a1")]]
    [("content", JVal.str "hi"), ("reference_type", JVal.str "article"),
      ("reference_id", JVal.str "a1")]
    [("content", JVal.str "hi"), ("reference_type", JVal.str "article"),
      ("reference_id", JVal.str "a1")]
    rfl (List.mem_cons_self _ _) rfl rfl

/-- Concrete category collection for the C4 counterexample: the
higher-priority category sorts after the lower-priority one because
`Category.findAll` orders by name alone. -/
def collC4 : Coll :=
  [[("id", JVal.str "c1"), ("name", JVal.str "alpha"), ("priority", JVal.num 1)],
   [("id", JVal.str "c2"), ("name", JVal.str "beta"), ("priority", JVal.num 5)]]

/-- C4 counterexample: the category listing is not sorted by
(priority desc, name asc) — a priority-5 category follows a priority-1
one. -/
theorem categoryGetAll_not_priority_sorted_counterexample :
    categoryGetAll collC4 50 0 =
      [[("id", JVal.str "c1"), ("name", JVal.str "alpha"), ("priority", JVal.num 1)],
       [("id", JVal.str "c2"), ("name", JVal.str "beta"), ("priority", JVal.num 5)]] ∧
    ¬ List.Pairwise prioNameLE (categoryGetAll collC4 50 0) :=
  ⟨rfl, by decide⟩

/-- C4 (amended): `Topic.getAll` returns its page sorted by
(priority desc, name asc): every earlier document has strictly higher
priority or equal priority and a name that is not later; `Category.getAll`
(alias of `findAll`) instead returns its page sorted by name ascending
only. -/
theorem getAll_sort_orders (c : Coll) (limit skip : Nat) :
    List.Pairwise prioNameLE (topicGetAll c limit skip) ∧
    List.Pairwise nameAscLE (categoryGetAll c limit skip) ∧
    List.Pairwise nameAscLE (categoryFindAll c limit skip) := by
  have hsub : ∀ (l : List Doc),
      List.Sublist ((l.drop skip).take limit) l := fun l =>
    (List.take_sublist _ _).trans (List.drop_sublist _ _)
  refine ⟨?_, ?_, ?_⟩
  · exact List.Pairwise.sublist (hsub _) (List.sorted_insertionSort prioNameLE c)
  · exact List.Pairwise.sublist (hsub _) (List.sorted_insertionSort nameAscLE c)
  · exact List.Pairwise.sublist (hsub _) (List.sorted_insertionSort nameAscLE c)

/-- C3 counterexample: store unavailability on the events listing (and
the notes listing, and a thrown query on the topics listing) is passed
to the error middleware instead of degrading to a 200 fallback
response. -/
theorem listing_fallback_counterexample :
    getAllEvents ⟨false, true, true, .ok (some [])⟩ 20 0 =
      .nextErr modelsNotInitialized ∧
    getAllNotes ⟨false, true, true, .ok (some [])⟩ 20 0 =
      .nextErr modelsNotInitialized ∧
    getAllTopics ⟨true, true, true, .error "db down"⟩ 20 0 =
      .nextErr "db down" :=
  ⟨rfl, rfl, rfl⟩

/-- C3 (amended): only the topics and categories listings degrade to the
fixed fallback datasets — topics when the store handle, model or listing
method is unavailable (but not for a thrown query, which is passed to
`next`), categories additionally for a thrown query or a non-array
result; the events and notes listings pass every store failure to the
error middleware. -/
theorem listing_fallback_policy (limit skip : Nat) (mp mm : Bool)
    (q : Except String (Option (List Doc))) (e : String) :
    (getAllTopics ⟨false, mp, mm, q⟩ limit skip =
        .resp 200 ⟨getSampleTopics, getSampleTopics.length, limit, skip⟩ ∧
      getAllTopics ⟨true, false, mm, q⟩ limit skip =
        .resp 200 ⟨getSampleTopics, getSampleTopics.length, limit, skip⟩ ∧
      getAllTopics ⟨true, true, false, q⟩ limit skip =
        .resp 200 ⟨getSampleTopics, getSampleTopics.length, limit, skip⟩ ∧
      getAllTopics ⟨true, true, true, .error e⟩ limit skip = .nextErr e) ∧
    (getAllCategories ⟨false, mp, mm, q⟩ limit skip =
        .resp 200 ⟨getSampleCategories, getSampleCategories.length, limit, skip⟩ ∧
      getAllCategories ⟨true, false, mm, q⟩ limit skip =
        .resp 200 ⟨getSampleCategories, getSampleCategories.length, limit, skip⟩ ∧
      getAllCategories ⟨true, true, false, q⟩ limit skip =
        .resp 200 ⟨getSampleCategories, getSampleCategories.length, limit, skip⟩ ∧
      getAllCategories ⟨true, true, true, .error e⟩ limit skip =
        .resp 200 ⟨getSampleCategories, getSampleCategories.length, limit, skip⟩ ∧
      getAllCategories ⟨true, true, true, .ok none⟩ limit skip =
        .resp 200 ⟨getSampleCategories, getSampleCategories.length, limit, skip⟩) ∧
    (getAllEvents ⟨false, mp, mm, q⟩ limit skip = .nextErr modelsNotInitialized ∧
      getAllEvents ⟨true, true, true, .error e⟩ limit skip = .nextErr e ∧
      getAllNotes ⟨false, mp, mm, q⟩ limit skip = .nextErr modelsNotInitialized ∧
      getAllNotes ⟨true, true, true, .error e⟩ limit skip = .nextErr e) :=
  ⟨⟨rfl, rfl, rfl, rfl⟩, ⟨rfl, rfl, rfl, rfl, rfl⟩, ⟨rfl, rfl, rfl, rfl⟩⟩

/-- C8: a search without a query (absent or empty `q`) is answered 400
with an error body no matter what state the store handle is in — the
store is never consulted; with a query present the selected kinds
default to all four, each is searched with the request limit
(defaulting to 10) and skip 0, and the body is the plain
`{query, <kind> lists}` shape. -/
theorem searchEntities_requires_query :
    (∀ (dbstate : Except String Store) (types : Option String) (lim : Option Nat),
      searchEntities dbstate none types lim =
        .badRequest 400 "Search query is required" ∧
      searchEntities dbstate (some "") types lim =
        .badRequest 400 "Search query is required") ∧
    searchLimit none = 10 ∧
    (∀ (st : Store) (qs : String) (lim : Option Nat), qs ≠ "" →
      searchEntities (.ok st) (some qs) none lim =
        .ok 200 ⟨qs, some (topicSearch st.topics qs (searchLimit lim) 0),
          some (categorySearch st.categories qs (searchLimit lim) 0),
          some (eventSearch st.events qs (searchLimit lim) 0),
          some (noteSearch st.notes qs (searchLimit lim) 0)⟩) := by
  refine ⟨fun dbstate types lim => ⟨rfl, rfl⟩, rfl, fun st qs lim hq => ?_⟩
  simp +decide [searchEntities, truthyStr, hq, parseSearchTypes, allTypeNames]

/-- Witness for C8: a broken store with no query still yields 400, and a
concrete query against the empty store searches all four kinds with the
default limit. -/
theorem searchEntities_requires_query_witness :
    searchEntities (.error "connection refused") none none none =
      .badRequest 400 "Search query is required" ∧
    ("ai" : String) ≠ "" ∧
    searchEntities (.ok ⟨[], [], [], []⟩) (some "ai") none none =
      .ok 200 ⟨"ai", some (topicSearch [] "ai" (searchLimit none) 0),
        some (categorySearch [] "ai" (searchLimit none) 0),
        some (eventSearch [] "ai" (searchLimit none) 0),
        some (noteSearch [] "ai" (searchLimit none) 0)⟩ :=
  ⟨(searchEntities_requires_query.1 (.error "connection refused") none none).1,
    by decide,
    searchEntities_requires_query.2.2 ⟨[], [], [], []⟩ "ai" none (by decide)⟩

/-- C7: in `getEntities` every parsed ID of a kind's comma-separated
parameter is fetched individually — an existing ID's document appears in
that kind's `data` list and a missing ID contributes its own
`{id, error}` entry to that kind's `errors` list (nothing is silently
dropped), and any missing ID forces status 207. -/
theorem getEntities_per_id (st : Store) (q : GetQuery) (k : Kind) (id : String)
    (hid : id ∈ parseIds (q k)) :
    (∀ doc, kindFindById st k id = some doc →
      ∃ dl, (getEntities st q).data k = some dl ∧ doc ∈ dl) ∧
    (kindFindById st k id = none →
      ∃ el, (getEntities st q).errors k = some el ∧
        (⟨id, kindLabel k ++ " with ID " ++ id ++ " not found"⟩ : IdErrEntry) ∈ el ∧
        (getEntities st q).status = 207) := by
  have hne : (parseIds (q k)).isEmpty = false := by
    cases hp : parseIds (q k) with
    | nil => rw [hp] at hid; cases hid
    | cons a t => rfl
  have hnetrue : ¬((parseIds (q k)).isEmpty = true) := by
    rw [hne]
    exact Bool.false_ne_true
  have hdata : (getEntities st q).data =
      pruneMap (fun k2 =>
        if (parseIds (q k2)).isEmpty then none
        else some ((parseIds (q k2)).filterMap (fun id2 => kindFindById st k2 id2))) := rfl
  have herr : (getEntities st q).errors =
      pruneMap (fun k2 =>
        if (parseIds (q k2)).isEmpty then none
        else some ((parseIds (q k2)).filterMap (fun id2 =>
          if (kindFindById st k2 id2).isNone then
            some ⟨id2, kindLabel k2 ++ " with ID " ++ id2 ++ " not found"⟩
          else none))) := rfl
  constructor
  · intro doc hdoc
    have hmem : doc ∈ (parseIds (q k)).filterMap (fun id2 => kindFindById st k id2) :=
      List.mem_filterMap.mpr ⟨id, hid, hdoc⟩
    refine ⟨_, ?_, hmem⟩
    rw [hdata]
    exact pruneMap_keeps (by rw [if_neg hnetrue]) (List.ne_nil_of_mem hmem)
  · intro hnone
    have hmem : (⟨id, kindLabel k ++ " with ID " ++ id ++ " not found"⟩ : IdErrEntry) ∈
        (parseIds (q k)).filterMap (fun id2 =>
          if (kindFindById st k id2).isNone then
            some ⟨id2, kindLabel k ++ " with ID " ++ id2 ++ " not found"⟩
          else none) :=
      List.mem_filterMap.mpr ⟨id, hid, by rw [hnone]; rfl⟩
    have herrk : (getEntities st q).errors k =
        some ((parseIds (q k)).filterMap (fun id2 =>
          if (kindFindById st k id2).isNone then
            some ⟨id2, kindLabel k ++ " with ID " ++ id2 ++ " not found"⟩
          else none)) := by
      rw [herr]
      exact pruneMap_keeps (by rw [if_neg hnetrue]) (List.ne_nil_of_mem hmem)
    refine ⟨_, herrk, hmem, ?_⟩
    have hstat : (getEntities st q).status =
        if kindOrder.all (fun k2 => ((getEntities st q).errors k2).isNone) then 200
        else 207 := rfl
    rw [hstat, kindOrder_all_false (by rw [herrk]; rfl)]
    rfl

/-- Concrete store for the C7 witness: one topic `t1`. -/
def storeC7 : Store :=
  ⟨[[("id", JVal.str "t1"), ("name", JVal.str "AI")]], [], [], []⟩

/-- Query string of the C7 witness: `topicIds=t1,missing`. -/
def queryC7 : GetQuery := fun k =>
  match k with
  | .topics => some "t1,missing"
  | _ => none

/-- Witness for C7: `t1` is served in `data.topics`, `missing` gets its
own error entry, and the response is 207. -/
theorem getEntities_per_id_witness :
    (∃ dl, (getEntities storeC7 queryC7).data .topics = some dl ∧
      [("id", JVal.str "t1"), ("name", JVal.str "AI")] ∈ dl) ∧
    (∃ el, (getEntities storeC7 queryC7).errors .topics = some el ∧
      (⟨"missing", kindLabel .topics ++ " with ID " ++ "missing" ++ " not found"⟩ :
        IdErrEntry) ∈ el ∧
      (getEntities storeC7 queryC7).status = 207) :=
  ⟨(getEntities_per_id storeC7 queryC7 .topics "t1"
      (List.mem_cons_self _ _)).1 _ rfl,
    (getEntities_per_id storeC7 queryC7 .topics "missing"
      (List.mem_cons_of_mem _ (List.mem_cons_self _ _))).2 rfl⟩

/-! ## Delete-path lemmas -/

theorem collDeleteById_unique {c : Coll} {id : String}
    (h : c.countP (fun d => docIdIs d id) = 1) :
    (collDeleteById c id).2 = true ∧
    collFindById ((collDeleteById c id).1) id = none := by
  induction c with
  | nil => cases h
  | cons d ds ih =>
      rw [List.countP_cons] at h
      by_cases hd : docIdIs d id = true
      · have hz : ds.countP (fun d2 => docIdIs d2 id) = 0 := by
          rw [hd] at h
          simpa using h
        have hnone : collFindById ds id = none := by
          rw [collFindById, List.find?_eq_none]
          intro x hx
          have := List.countP_eq_zero.mp hz x hx
          simpa using this
        rw [collDeleteById, if_pos hd]
        exact ⟨rfl, hnone⟩
      · have hd0 : (if docIdIs d id = true then 1 else 0) = 0 := by
          rw [if_neg hd]
        rw [hd0] at h
        rcases ih (by omega) with ⟨hrem, hfind⟩
        rw [collDeleteById, if_neg hd]
        refine ⟨hrem, ?_⟩
        rw [collFindById, List.find?_cons, ]
        simp only [hd]
        rw [collFindById] at hfind
        simpa using hfind

/-- Request body of the C6 scenario: `{"topicIds": ["t1"]}`. -/
def deleteBodyC6 : DeleteBody := fun k =>
  match k with
  | .topics => some ["t1"]
  | _ => none

/-- C6: deleting `t1` twice — with the existence check preceding the
delete call — first answers 200 with `deleted.topics = ["t1"]` and no
errors, then 207 with a not-found (not "failed to delete") error entry
for `t1`; the other kinds' collections are untouched by the first
call. -/
theorem deleteEntities_twice_scenario (st : Store)
    (huniq : st.topics.countP (fun d => docIdIs d "t1") = 1) :
    (deleteEntities st deleteBodyC6).2.status = 200 ∧
    (deleteEntities st deleteBodyC6).2.deleted .topics = some ["t1"] ∧
    (∀ k, (deleteEntities st deleteBodyC6).2.errors k = none) ∧
    (deleteEntities st deleteBodyC6).1.categories = st.categories ∧
    (deleteEntities st deleteBodyC6).1.events = st.events ∧
    (deleteEntities st deleteBodyC6).1.notes = st.notes ∧
    (deleteEntities (deleteEntities st deleteBodyC6).1 deleteBodyC6).2.status = 207 ∧
    (deleteEntities (deleteEntities st deleteBodyC6).1 deleteBodyC6).2.deleted
      .topics = none ∧
    (deleteEntities (deleteEntities st deleteBodyC6).1 deleteBodyC6).2.errors
      .topics = some [⟨"t1", "Topic with ID t1 not found"⟩] := by
  have hpos : 0 < st.topics.countP (fun d => docIdIs d "t1") := by
    rw [huniq]
    exact Nat.one_pos
  have hex : ∃ d0 ∈ st.topics, docIdIs d0 "t1" = true := List.countP_pos_iff.mp hpos
  have hfs : (st.topics.find? (fun d => docIdIs d "t1")).isSome :=
    List.find?_isSome.mpr hex
  rcases ho : st.topics.find? (fun d => docIdIs d "t1") with _ | d0
  · rw [ho] at hfs
    cases hfs
  · have hkf : kindFindById st .topics "t1" = some d0 := ho
    have hdel := collDeleteById_unique huniq
    have hrem : (kindDelete st .topics "t1").2 = true := hdel.1
    have h1 : deleteItems .topics st ["t1"] =
        ((kindDelete st .topics "t1").1, ["t1"], []) := by
      rw [deleteItems, hkf]
      simp only [hrem, if_true]
      rfl
    have h2 : deleteBatch kindOrder st deleteBodyC6 =
        ((kindDelete st .topics "t1").1,
          Function.update (fun _ => none) Kind.topics (some ["t1"]),
          Function.update (fun _ => none) Kind.topics
            (some ([] : List IdErrEntry))) := by
      simp +decide [kindOrder, deleteBatch, deleteBodyC6, h1]
    have hst1 : (deleteEntities st deleteBodyC6).1 = (kindDelete st .topics "t1").1 := by
      have : (deleteEntities st deleteBodyC6).1 =
          (deleteBatch kindOrder st deleteBodyC6).1 := rfl
      rw [this, h2]
    have hkf2 : kindFindById (kindDelete st .topics "t1").1 .topics "t1" = none :=
      hdel.2
    have h1b : deleteItems .topics (kindDelete st .topics "t1").1 ["t1"] =
        ((kindDelete st .topics "t1").1, [],
          [⟨"t1", "Topic with ID t1 not found"⟩]) := by
      rw [deleteItems, hkf2]
      rfl
    have h2b : deleteBatch kindOrder (kindDelete st .topics "t1").1 deleteBodyC6 =
        ((kindDelete st .topics "t1").1,
          Function.update (fun _ => none) Kind.topics (some ([] : List String)),
          Function.update (fun _ => none) Kind.topics
            (some [(⟨"t1", "Topic with ID t1 not found"⟩ : IdErrEntry)])) := by
      simp +decide [kindOrder, deleteBatch, deleteBodyC6, h1b]
    refine ⟨?_, ?_, ?_, ?_, ?_, ?_, ?_, ?_, ?_⟩
    · show (if kindOrder.all (fun k =>
          ((pruneMap (deleteBatch kindOrder st deleteBodyC6).2.2) k).isNone)
          then 200 else 207 : Nat) = 200
      rw [h2]
      simp +decide [kindOrder, pruneMap, Function.update]
    · show pruneMap (deleteBatch kindOrder st deleteBodyC6).2.1 .topics = some ["t1"]
      rw [h2]
      simp +decide [pruneMap, Function.update]
    · intro k
      show pruneMap (deleteBatch kindOrder st deleteBodyC6).2.2 k = none
      rw [h2]
      cases k <;> simp +decide [pruneMap, Function.update]
    · rw [hst1]
      rfl
    · rw [hst1]
      rfl
    · rw [hst1]
      rfl
    · rw [hst1]
      show (if kindOrder.all (fun k =>
          ((pruneMap (deleteBatch kindOrder (kindDelete st .topics "t1").1
            deleteBodyC6).2.2) k).isNone) then 200 else 207 : Nat) = 207
      rw [h2b]
      simp +decide [kindOrder, pruneMap, Function.update]
    · rw [hst1]
      show pruneMap (deleteBatch kindOrder (kindDelete st .topics "t1").1
        deleteBodyC6).2.1 .topics = none
      rw [h2b]
      simp +decide [pruneMap, Function.update]
    · rw [hst1]
      show pruneMap (deleteBatch kindOrder (kindDelete st .topics "t1").1
        deleteBodyC6).2.2 .topics = some [⟨"t1", "Topic with ID t1 not found"⟩]
      rw [h2b]
      simp +decide [pruneMap, Function.update]

/-- Store for the C6 witness: a single topic `t1`. -/
def storeC6 : Store :=
  ⟨[[("id", JVal.str "t1"), ("name", JVal.str "AI")]], [], [], []⟩

/-- Witness for C6 at the concrete one-topic store. -/
theorem deleteEntities_twice_scenario_witness :
    storeC6.topics.countP (fun d => docIdIs d "t1") = 1 ∧
    (deleteEntities storeC6 deleteBodyC6).2.status = 200 ∧
    (deleteEntities (deleteEntities storeC6 deleteBodyC6).1 deleteBodyC6).2.errors
      .topics = some [⟨"t1", "Topic with ID t1 not found"⟩] :=
  ⟨by decide,
    (deleteEntities_twice_scenario storeC6 (by decide)).1,
    (deleteEntities_twice_scenario storeC6 (by decide)).2.2.2.2.2.2.2.2⟩

/-- The Joi schema backing each kind's validator. -/
def kindSchema : Kind → Bool → List SchemaField
  | .topics => topicSchema
  | .categories => categorySchema
  | .events => eventSchema
  | .notes => noteSchema

theorem kindValidate_eq (k : Kind) (d : Doc) (iu : Bool) :
    kindValidate k d iu = joiValidate (kindSchema k iu) d := by
  cases k <;> rfl

/-- C9: for every kind's validator, the validated value only ever holds
fields declared in that kind's schema (`stripUnknown` drops the rest
before anything is persisted), and adding a field with an undeclared
name to a payload changes neither the validated value nor the error
outcome — an unknown field alone never causes a validation error. -/
theorem validators_strip_unknown (k : Kind) (iu : Bool) (d : Doc) :
    (∀ value key v, kindValidate k d iu = .ok value → getField value key = some v →
      key ∈ (kindSchema k iu).map SchemaField.name) ∧
    (∀ key v, key ∉ (kindSchema k iu).map SchemaField.name →
      kindValidate k (d ++ [(key, v)]) iu = kindValidate k d iu) := by
  constructor
  · intro value key v hok hget
    rw [kindValidate_eq] at hok
    rcases joiValidate_ok_getField hok hget with ⟨f, hf, hname, _⟩
    exact List.mem_map.mpr ⟨f, hf, hname⟩
  · intro key v hkey
    rw [kindValidate_eq, kindValidate_eq]
    apply joiValidate_congr
    intro f hf
    rw [getField_append]
    cases hd : getField d f.name with
    | some v2 => rfl
    | none =>
        have hmem : f.name ∈ (kindSchema k iu).map SchemaField.name :=
          List.mem_map.mpr ⟨f, hf, rfl⟩
        have hne : ¬(key = f.name) := fun he => hkey (he ▸ hmem)
        show getField [(key, v)] f.name = none
        simp [getField, hne]

/-- Witness for C9: an undeclared `bogus` field on a topic payload is
stripped and does not disturb validation. -/
theorem validators_strip_unknown_witness :
    ("bogus" ∉ (kindSchema .topics false).map SchemaField.name) ∧
    kindValidate .topics ([("name", JVal.str "AI")] ++ [("bogus", JVal.str "x")])
        false =
      kindValidate .topics [("name", JVal.str "AI")] false ∧
    ("name" ∈ (kindSchema .topics false).map SchemaField.name) :=
  ⟨by decide,
    (validators_strip_unknown .topics false [("name", JVal.str "AI")]).2 "bogus"
      (JVal.str "x") (by decide),
    (validators_strip_unknown .topics false [("name", JVal.str "AI")]).1
      [("name", JVal.str "AI")] "name" (JVal.str "AI") rfl rfl⟩

/-! ## Note-update lemmas -/

theorem collFindById_cons (d : Doc) (ds : Coll) (id : String) :
    collFindById (d :: ds) id =
      if docIdIs d id = true then some d else collFindById ds id := by
  simp only [collFindById, List.find?_cons]
  by_cases hd : docIdIs d id = true <;> simp [hd]

theorem collUpdateById_found {c : Coll} {id : String} {upd d0 : Doc}
    (hf : collFindById c id = some d0)
    (hpres : docIdIs (mergeDoc d0 upd) id = true) :
    collFindById ((collUpdateById c id upd).1) id = some (mergeDoc d0 upd) := by
  induction c with
  | nil => cases hf
  | cons d ds ih =>
      by_cases hd : docIdIs d id = true
      · have hd0 : d = d0 := by
          rw [collFindById_cons, if_pos hd] at hf
          injection hf
        subst hd0
        rw [collUpdateById, if_pos hd]
        show collFindById (mergeDoc d upd :: ds) id = some (mergeDoc d upd)
        rw [collFindById_cons, if_pos hpres]
      · rw [collFindById_cons, if_neg hd] at hf
        rw [collUpdateById, if_neg hd]
        show collFindById (d :: (collUpdateById ds id upd).1) id = some (mergeDoc d0 upd)
        rw [collFindById_cons, if_neg hd]
        exact ih hf

theorem noteSchema_names (iu : Bool) :
    (noteSchema iu).map SchemaField.name =
      ["id", "content", "created_at", "updated_at", "reference_type",
       "reference_id", "tags", "metadata", "priority", "is_archived"] := rfl

theorem validated_note_id_str {raw value : Doc} {iu : Bool}
    (hok : validateNote raw iu = .ok value)
    (hid : truthyOpt (getField value "id") = true) :
    ∃ s, getField value "id" = some (.str s) ∧ s ≠ "" := by
  rcases hw : getField value "id" with _ | w
  · rw [hw] at hid
    cases hid
  · rcases joiValidate_ok_getField (show joiValidate (noteSchema iu) raw = .ok value
      from hok) hw with ⟨f, hf, hname, v0, hget0, hchk⟩
    have hform : f.chk = .flat (.cstr true false) := by
      simp only [noteSchema, List.mem_cons, List.not_mem_nil, or_false] at hf
      rcases hf with rfl | rfl | rfl | rfl | rfl | rfl | rfl | rfl | rfl | rfl <;>
        first
          | rfl
          | exact absurd hname (by simp +decide)
    rw [hform] at hchk
    cases v0 with
    | str s0 =>
        rw [checkField, checkFlat] at hchk
        by_cases hempty : joiTrim true s0 = ""
        · rw [if_pos (by simp [hempty])] at hchk
          cases hchk
        · rw [if_neg (by simp [hempty])] at hchk
          injection hchk with hchk
          exact ⟨joiTrim true s0, by rw [← hchk], hempty⟩
    | num n => cases hchk
    | bool b => cases hchk
    | time t => cases hchk
    | arr xs => cases hchk
    | obj fs => cases hchk

theorem processItem_notfound {k : Kind} {now : Nat} {st : Store} {ctr : Nat}
    {raw value : Doc}
    (hval : kindValidate k raw (truthyOpt (getField raw "id")) = .ok value)
    (hid : truthyOpt (getField value "id") = true)
    (hf : kindFindById st k (strOf (getField value "id")) = none) :
    (processItem k now st ctr raw).2.2 =
      .failed ⟨raw, kindLabel k ++ " with ID " ++ strOf (getField value "id") ++
        " not found"⟩ := by
  simp only [processItem, hval, hid, if_true, hf]

theorem processItem_update_nomod {k : Kind} {now : Nat} {st : Store} {ctr : Nat}
    {raw value d0 : Doc}
    (hval : kindValidate k raw (truthyOpt (getField raw "id")) = .ok value)
    (hid : truthyOpt (getField value "id") = true)
    (hf : kindFindById st k (strOf (getField value "id")) = some d0)
    (hmod : (kindUpdate st k (strOf (getField value "id")) value now).2 = false) :
    (processItem k now st ctr raw).2.2 =
      .failed ⟨raw, "Failed to update " ++ kindLower k ++ " with ID " ++
        strOf (getField value "id")⟩ := by
  simp only [processItem, hval, hid, if_true, hf, hmod, Bool.false_eq_true, if_false]

theorem processItem_update_mod {k : Kind} {now : Nat} {st : Store} {ctr : Nat}
    {raw value d0 u : Doc}
    (hval : kindValidate k raw (truthyOpt (getField raw "id")) = .ok value)
    (hid : truthyOpt (getField value "id") = true)
    (hf : kindFindById st k (strOf (getField value "id")) = some d0)
    (hmod : (kindUpdate st k (strOf (getField value "id")) value now).2 = true)
    (hf2 : kindFindById (kindUpdate st k (strOf (getField value "id")) value now).1 k
      (strOf (getField value "id")) = some u) :
    (processItem k now st ctr raw).2.2 = .updated u := by
  simp only [processItem, hval, hid, if_true, hf, hmod, hf2]

theorem processItem_notes_updated {now : Nat} {st : Store} {ctr : Nat}
    {raw d : Doc}
    (h3 : (processItem .notes now st ctr raw).2.2 = .updated d) :
    getField d "updated_at" = some (.time now) := by
  rcases hv : kindValidate .notes raw (truthyOpt (getField raw "id")) with msgs | value
  · rw [processItem_invalid hv] at h3
    exact Outcome.noConfusion h3
  · rcases hid : truthyOpt (getField value "id") with _ | _
    · rw [processItem_create hv hid] at h3
      exact Outcome.noConfusion h3
    · rcases validated_note_id_str hv hid with ⟨s, hgid, hsne⟩
      have hids : strOf (getField value "id") = s := by rw [hgid, strOf]
      rcases hf : kindFindById st .notes (strOf (getField value "id")) with _ | d0
      · rw [processItem_notfound hv hid hf] at h3
        exact Outcome.noConfusion h3
      · have hnd : (value.map Prod.fst).Nodup :=
          joiValidate_keys_nodup (show joiValidate (noteSchema
            (truthyOpt (getField raw "id"))) raw = .ok value from hv)
            (by rw [noteSchema_names]; decide)
        have hnd2 : ((setField value "updated_at" (.time now)).map Prod.fst).Nodup :=
          keys_setField_nodup _ _ hnd
        have hupdid : getField (setField value "updated_at" (.time now)) "id" =
            some (.str s) := by
          rw [getField_setField_ne _ _ _ _ (by decide), hgid]
        have hmerge_id : getField (mergeDoc d0 (setField value "updated_at"
            (.time now))) "id" = some (.str s) :=
          getField_mergeDoc_of_nodupKeys _ _ _ d0 hnd2 hupdid
        have hpres : docIdIs (mergeDoc d0 (setField value "updated_at" (.time now)))
            (strOf (getField value "id")) = true := by
          rw [docIdIs, hmerge_id, hids]
          simp
        have hf0 : collFindById st.notes (strOf (getField value "id")) = some d0 := hf
        have hfound2 : collFindById ((collUpdateById st.notes
            (strOf (getField value "id"))
            (setField value "updated_at" (.time now))).1)
            (strOf (getField value "id")) =
            some (mergeDoc d0 (setField value "updated_at" (.time now))) :=
          collUpdateById_found hf0 hpres
        have hf2 : kindFindById (kindUpdate st .notes (strOf (getField value "id"))
            value now).1 .notes (strOf (getField value "id")) =
            some (mergeDoc d0 (setField value "updated_at" (.time now))) := hfound2
        by_cases hmod : (kindUpdate st .notes (strOf (getField value "id"))
            value now).2 = true
        · rw [processItem_update_mod hv hid hf hmod hf2] at h3
          have hd : mergeDoc d0 (setField value "updated_at" (.time now)) = d := by
            injection h3
          rw [← hd]
          exact getField_mergeDoc_of_nodupKeys _ _ _ d0 hnd2 (getField_setField_self _ _ _)
        · rw [processItem_update_nomod hv hid hf (by simpa using hmod)] at h3
          exact Outcome.noConfusion h3

theorem processItems_notes_updated {now : Nat} {l : List Doc} :
    ∀ {st : Store} {ctr : Nat} {d : Doc},
    Outcome.updated d ∈ (processItems .notes now st ctr l).2.2 →
    getField d "updated_at" = some (.time now) := by
  induction l with
  | nil =>
      intro st ctr d hm
      cases hm
  | cons a as ih =>
      intro st ctr d hm
      rw [processItems_cons] at hm
      rcases List.mem_cons.mp hm with he | hm2
      · exact processItem_notes_updated he.symm
      · exact ih hm2

/-- C10: every note appearing in the `updated` list of a
`createOrUpdateEntities` response carries `updated_at` equal to the
request time — the Note model stamps the timestamp inside `update`, so
any client-supplied `updated_at` is overwritten. -/
theorem noteUpdate_stamps_updated_at (st : Store) (ctr now : Nat) (body : Batch)
    (d : Doc) (ul : List Doc)
    (hul : (createOrUpdateEntities st ctr now body).2.2.updated .notes = some ul)
    (hd : d ∈ ul) : getField d "updated_at" = some (.time now) := by
  have hupd : (createOrUpdateEntities st ctr now body).2.2.updated =
      pruneMap (fun k2 => ((processBatch now kindOrder st ctr body).2.2 k2).map
        (List.filterMap updatedOf)) := rfl
  rw [hupd] at hul
  rcases pruneMap_eq_some hul with ⟨hfk, _⟩
  rcases Option.map_eq_some'.mp hfk with ⟨os, hos, hosu⟩
  rcases processBatch_some hos with ⟨l, st2, ctr2, _, _, hoseq⟩
  rw [← hosu] at hd
  rcases List.mem_filterMap.mp hd with ⟨o, ho, hou⟩
  cases o with
  | created u => cases hou
  | failed e => cases hou
  | updated u =>
      have hu : u = d := by
        rw [updatedOf] at hou
        injection hou
      rw [hoseq] at ho
      rw [← hu]
      exact processItems_notes_updated ho

/-- Store for the C10 witness: one note `n1` with an old timestamp. -/
def storeC10 : Store :=
  ⟨[], [], [],
    [[("id", JVal.str "n1"), ("content", JVal.str "old"),
      ("updated_at", JVal.time 1)]]⟩

/-- Batch for the C10 witness: a note update that tries to smuggle in
`updated_at = 99`. -/
def batchC10 : Batch := fun k =>
  match k with
  | .notes => some [[("id", JVal.str "n1"), ("content", JVal.str "new"),
      ("updated_at", JVal.time 99)]]
  | _ => none

/-- Witness for C10: at request time 5 the stored and returned note
carries `updated_at = 5`, not the client-supplied 99. -/
theorem noteUpdate_stamps_updated_at_witness :
    getField [("id", JVal.str "n1"), ("content", JVal.str "new"),
      ("updated_at", JVal.time 5)] "updated_at" = some (.time 5) :=
  noteUpdate_stamps_updated_at storeC10 0 5 batchC10
    [("id", JVal.str "n1"), ("content", JVal.str "new"),
      ("updated_at", JVal.time 5)]
    [[("id", JVal.str "n1"), ("content", JVal.str "new"),
      ("updated_at", JVal.time 5)]]
    rfl (List.mem_cons_self _ _)
